import Mathlib

/-!
# scum: the command layer (`main.go`)

A shallow embedding of the `add`, `show`, `mount`, `verify` and `rotate`
commands of `main.go`.  The commands are glue around four collaborators whose
code lives outside `main.go` (crypt envelope, bag store, profile registry,
mount manager); these are parameters of the embedding (`Env`), the bag store
being modelled from its written contract.  Everything a command does that can
be observed from outside (text written, collaborator calls, process exit) is
recorded in order in a trace.
-/

namespace Scum

/-- Byte strings (`[]byte`). -/
abbrev Bytes := List Nat

/-- Modelled from the spec: the error taxonomy of section 7; the Go `error` values
returned by the collaborators, whose declarations are not part of `main.go`. -/
inductive Err
  | UnknownTypeError
  | NotFoundError
  | StorageError
  | AuthenticationError
  | DecryptionError
  | MountError
  | IssuerError
  deriving DecidableEq, Repr

/-- Result of `p.Capabilities()`: the fields read by `main.go`. -/
structure Capabilities where
  Mount : Bool
  Verify : Bool
  Rotate : Bool
  deriving DecidableEq, Repr

/-- The configuration record `cfg`: the fields read by `main.go`. -/
structure config where
  PublicRSAKey : String
  PrivateRSAKey : String
  BagPath : String
  Mountpoint : String
  MountTimeout : Int
  Debug : Bool
  deriving DecidableEq, Repr

/-- The value `c` returned by `NewCrypt`, with the two methods `main.go` calls. -/
structure Crypt where
  Encrypt : Bytes → Except Err Bytes
  Decrypt : Bytes → Bytes → Except Err Bytes

/-- A credential entry of the bag: name, type tag (`kind` in `main.go`) and ciphertext. -/
structure BagEntry where
  name : String
  kind : String
  ciphertext : Bytes
  deriving DecidableEq, Repr

/-- The stored state of the bag. -/
abbrev Bag := List BagEntry

/-- The result of `b.List(args)`: a Go map from name to type, held as its entries. -/
abbrev Listing := List (String × String)

/-- The Go map `mountFiles : map[string][]byte`, held as an association list
with at most one pair per key. -/
abbrev Files := List (String × Bytes)

/-- How the surroundings of `main.go` answer during one invocation.  `P` is the
type of profile values.  Methods with a pointer receiver that may change the
profile return the changed profile. -/
structure Env (P : Type) where
  /-- the global `cfg` -/
  cfg : config
  /-- the global `flagKind` (`--type`) -/
  flagKind : String
  /-- the call `NewCrypt(public, private)` -/
  NewCrypt : String → String → Except Err Crypt
  /-- the call `NewBag(path)`: whether the bag can be opened -/
  NewBag : String → Except Err Unit
  /-- glob matching of a pattern against an entry name, used by `b.List` -/
  globMatch : String → String → Bool
  /-- I/O fault met by `b.List(args)`, if any -/
  listFault : List String → Option Err
  /-- I/O fault met by `b.Read(name, kind)`, if any -/
  readFault : String → String → Option Err
  /-- I/O fault met by `b.Write(name, kind, data)`, if any -/
  writeFault : String → String → Bytes → Option Err
  /-- the order in which the `k`-th `range` statement of the invocation visits
  the entries of a map (Go leaves it unspecified) -/
  rangeOrder : Nat → Listing → Listing
  /-- the call `NewProfile(kind)` -/
  NewProfile : String → Except Err P
  /-- the method `p.Prompt()` -/
  Prompt : P → P
  /-- the method `p.Serialize()` -/
  Serialize : P → Except Err Bytes
  /-- the method `p.Deserialize(data)` -/
  Deserialize : P → Bytes → Except Err P
  /-- the method `p.Name()` -/
  Name : P → String
  /-- the method `p.Type()` -/
  Kind : P → String
  /-- the method `p.Capabilities()` -/
  Capabilities : P → Capabilities
  /-- the method `p.MountSnippet()`, the snippet given as the bytes `[]byte(mountSnippet)` -/
  MountSnippet : P → String × Bytes
  /-- the method `p.VerifyCredentials()` -/
  VerifyCredentials : P → (String × Bool) × P
  /-- the method `p.RotateCredentials()` -/
  RotateCredentials : P → Except Err Bytes × P
  /-- how `fmt.Println(p)` formats a profile -/
  Format : P → String
  /-- the call `terminal.ReadPassword(stdin)` -/
  ReadPassword : Except Err Bytes

/-- What an invocation does that is visible from outside, in order. -/
inductive Event
  /-- literal text written to standard output -/
  | stdout (s : String)
  /-- a loaded profile written to standard output by `fmt.Println(p)` -/
  | profile (s : String)
  /-- text written to standard error -/
  | stderr (s : String)
  /-- an error written to standard error by `exitOnErr` -/
  | stderrErr (e : Err)
  /-- call of `terminal.ReadPassword` -/
  | readPassword
  /-- call of `b.Read(name, kind)` -/
  | read (name kind : String)
  /-- call of `c.Decrypt(encrypted, pw)` -/
  | decrypt (encrypted pw : Bytes)
  /-- call of `p.Deserialize(data)` -/
  | deserialize (data : Bytes)
  /-- call of `p.MountSnippet()` -/
  | mountSnippet
  /-- call of `p.VerifyCredentials()` -/
  | verifyCredentials
  /-- call of `p.RotateCredentials()` -/
  | rotateCredentials
  /-- call of `b.Write(name, kind, data)` -/
  | write (name kind : String) (data : Bytes)
  /-- call of `mount(mountpoint, files, timeout, debug)` -/
  | mount (mountpoint : String) (files : Files) (timeout : Int) (debug : Bool)
  deriving DecidableEq, Repr

/-- The state an invocation works on: the bag and the trace so far. -/
structure World where
  bag : Bag
  trace : List Event
  deriving DecidableEq, Repr

/-- How a piece of a command ends: it goes on with a value, or the process
exits (`os.Exit(code)`). -/
inductive Outcome (α : Type) where
  | ok (a : α) (w : World)
  | exit (code : Int) (w : World)
  deriving DecidableEq, Repr

/-- The world in which a piece of a command ends. -/
def Outcome.world {α : Type} : Outcome α → World
  | .ok _ w => w
  | .exit _ w => w

/-- A piece of a command. -/
def Run (α : Type) : Type := World → Outcome α

/-- Sequencing: what follows `os.Exit` is not executed. -/
def Run.bind {α β : Type} (x : Run α) (f : α → Run β) : Run β := fun w =>
  match x w with
  | .ok a w1 => f a w1
  | .exit code w1 => .exit code w1

instance : Monad Run where
  pure a := fun w => .ok a w
  bind := Run.bind

/-- Append one event to the trace and return `r`. -/
def call {α : Type} (ev : Event) (r : α) : Run α := fun w =>
  .ok r ⟨w.bag, w.trace ++ [ev]⟩

/-- Append one event to the trace. -/
def emit (ev : Event) : Run Unit := call ev ()

/-- The function `exitOnErr`, taking the value that came with `err`: a non-nil error is
printed to standard error and the process exits with status -1. -/
def exitOnErr {α : Type} (r : Except Err α) : Run α := fun w =>
  match r with
  | .ok a => .ok a w
  | .error err => .exit (-1) ⟨w.bag, w.trace ++ [.stderrErr err]⟩

/-- The function `promptPassword(message, out)`. -/
def promptPassword {P : Type} (env : Env P) (message : String) (out : String → Event) :
    Run (Except Err Bytes) := do
  emit (out ("Enter Password for '" ++ message ++ "': "))
  let r ← call .readPassword env.ReadPassword
  emit (.stdout "\n")
  pure r

/-! ## The bag store -/

/-- Modelled from the spec: `List(patterns)` of section 4.1.  An empty pattern
sequence matches every entry, otherwise an entry matches when its name matches
any pattern; the result maps names to types. -/
def bagList {P : Type} (env : Env P) (bag : Bag) (args : List String) : Except Err Listing :=
  match env.listFault args with
  | some err => .error err
  | none =>
    .ok ((bag.filter (fun e => args.isEmpty || args.any (fun pat => env.globMatch pat e.name))).map
      (fun e => (e.name, e.kind)))

/-- Modelled from the spec: `Read(name, type)` of section 4.1.  Fails with
`NotFoundError` when no entry with that name and type exists. -/
def bagRead {P : Type} (env : Env P) (bag : Bag) (name kind : String) : Except Err Bytes :=
  match env.readFault name kind with
  | some err => .error err
  | none =>
    match bag.find? (fun e => e.name = name ∧ e.kind = kind) with
    | some e => .ok e.ciphertext
    | none => .error .NotFoundError

/-- Modelled from the spec: the effect on the store of a `Write(name, type, ciphertext)`
of section 4.1 that meets no fault: the entry is created, or replaces the one of that name. -/
def bagWrite (bag : Bag) (name kind : String) (data : Bytes) : Bag :=
  bag.filter (fun e => e.name ≠ name) ++ [⟨name, kind, data⟩]

/-- The call `b.List(args)`. -/
def List_ {P : Type} (env : Env P) (args : List String) : Run (Except Err Listing) := fun w =>
  .ok (bagList env w.bag args) w

/-- The call `b.Read(name, kind)`. -/
def Read {P : Type} (env : Env P) (name kind : String) : Run (Except Err Bytes) := fun w =>
  .ok (bagRead env w.bag name kind) ⟨w.bag, w.trace ++ [.read name kind]⟩

/-- The call `b.Write(name, kind, data)`: on a fault the store keeps its prior state. -/
def Write {P : Type} (env : Env P) (name kind : String) (data : Bytes) :
    Run (Except Err Unit) := fun w =>
  match env.writeFault name kind data with
  | some err => .ok (.error err) ⟨w.bag, w.trace ++ [.write name kind data]⟩
  | none => .ok (.ok ()) ⟨bagWrite w.bag name kind data, w.trace ++ [.write name kind data]⟩

/-! ## Go maps and loops -/

/-- Reading a key of `mountFiles`: `mountFiles[k]`, with presence. -/
def mapGet (m : Files) (k : String) : Option Bytes :=
  match m with
  | [] => none
  | (k1, v) :: rest => if k1 = k then some v else mapGet rest k

/-- The assignment `mountFiles[k] = v`. -/
def mapSet (m : Files) (k : String) (v : Bytes) : Files :=
  match m with
  | [] => [(k, v)]
  | (k1, v1) :: rest => if k1 = k then (k, v) :: rest else (k1, v1) :: mapSet rest k v

/-- A `for name, kind := range list` loop whose body is `body`, over the entries
in the order they are visited. -/
def forRange (body : String × String → Run Unit) : Listing → Run Unit
  | [] => pure ()
  | e :: rest => do
    body e
    forRange body rest

/-! ## The commands -/

/-- The `Run` function of `addCmd`. -/
def addCmd {P : Type} (env : Env P) : Run Unit := do
  let c ← exitOnErr (env.NewCrypt env.cfg.PublicRSAKey env.cfg.PrivateRSAKey)
  let p ← exitOnErr (env.NewProfile env.flagKind)
  let p := env.Prompt p
  let serialized ← exitOnErr (env.Serialize p)
  let encrypted ← exitOnErr (c.Encrypt serialized)
  exitOnErr (env.NewBag env.cfg.BagPath)
  let r ← Write env (env.Name p) (env.Kind p) encrypted
  exitOnErr r

/-- The body of the loop of `showCmd`. -/
def showEntry {P : Type} (env : Env P) (c : Crypt) (pw : Bytes) (e : String × String) :
    Run Unit := do
  let p ← exitOnErr (env.NewProfile e.2)
  let r ← Read env e.1 e.2
  let encrypted ← exitOnErr r
  let r ← call (.decrypt encrypted pw) (c.Decrypt encrypted pw)
  let data ← exitOnErr r
  let r ← call (.deserialize data) (env.Deserialize p data)
  let p ← exitOnErr r
  emit (.profile (env.Format p))

/-- The `Run` function of `showCmd` (cobra calls it with at least one argument). -/
def showCmd {P : Type} (env : Env P) (args : List String) : Run Unit := do
  let c ← exitOnErr (env.NewCrypt env.cfg.PublicRSAKey env.cfg.PrivateRSAKey)
  exitOnErr (env.NewBag env.cfg.BagPath)
  let r ← List_ env args
  let list ← exitOnErr r
  if list.length > 0 then
    let r ← promptPassword env env.cfg.PrivateRSAKey Event.stderr
    let pw ← exitOnErr r
    forRange (showEntry env c pw) (env.rangeOrder 0 list)
  else
    emit (.stdout "No matches found\n")

/-- The body of the loop of `mountCmd`; `mountFiles` is passed in and returned. -/
def mountEntry {P : Type} (env : Env P) (c : Crypt) (pw : Bytes) (e : String × String)
    (mountFiles : Files) : Run Files := do
  let p ← exitOnErr (env.NewProfile e.2)
  if !(env.Capabilities p).Mount then
    emit (.stdout ("Profile '" ++ e.1 ++ "' cannot be mounted because its of kind " ++ e.2 ++
      " which does not support mount. Skipping...\n"))
    pure mountFiles
  else
    let r ← Read env e.1 e.2
    let encrypted ← exitOnErr r
    let r ← call (.decrypt encrypted pw) (c.Decrypt encrypted pw)
    let data ← exitOnErr r
    let r ← call (.deserialize data) (env.Deserialize p data)
    let p ← exitOnErr r
    let (mountPath, mountSnippet) ← call .mountSnippet (env.MountSnippet p)
    let mountData := (mapGet mountFiles mountPath).getD [] ++ mountSnippet
    pure (mapSet mountFiles mountPath mountData)

/-- The loop of `mountCmd`. -/
def mountLoop {P : Type} (env : Env P) (c : Crypt) (pw : Bytes) :
    Listing → Files → Run Files
  | [], mountFiles => pure mountFiles
  | e :: rest, mountFiles => do
    let mountFiles ← mountEntry env c pw e mountFiles
    mountLoop env c pw rest mountFiles

/-- The `Run` function of `mountCmd` (cobra calls it with at least one argument). -/
def mountCmd {P : Type} (env : Env P) (args : List String) : Run Unit := do
  let c ← exitOnErr (env.NewCrypt env.cfg.PublicRSAKey env.cfg.PrivateRSAKey)
  exitOnErr (env.NewBag env.cfg.BagPath)
  let r ← List_ env args
  let list ← exitOnErr r
  if list.length > 0 then
    let r ← promptPassword env env.cfg.PrivateRSAKey Event.stderr
    let pw ← exitOnErr r
    let mountFiles ← mountLoop env c pw (env.rangeOrder 0 list) []
    emit (.stdout ("Mounting credentials at " ++ env.cfg.Mountpoint ++ "\n"))
    emit (.mount env.cfg.Mountpoint mountFiles env.cfg.MountTimeout env.cfg.Debug)
  else
    emit (.stdout "No matches found\n")

/-- The local function `getUnicode` of `verifyCmd`. -/
def getUnicode (b : Bool) : String :=
  if b then "✔" else "✘"

/-- The body of the loop of `verifyCmd`. -/
def verifyEntry {P : Type} (env : Env P) (c : Crypt) (pw : Bytes) (e : String × String) :
    Run Unit := do
  let p ← exitOnErr (env.NewProfile e.2)
  if !(env.Capabilities p).Verify then
    emit (.stdout ("Profile '" ++ e.1 ++ "' cannot be verified because its of kind " ++ e.2 ++
      " which does not support verification. Skipping...\n"))
  else
    let r ← Read env e.1 e.2
    let encrypted ← exitOnErr r
    let r ← call (.decrypt encrypted pw) (c.Decrypt encrypted pw)
    let data ← exitOnErr r
    let r ← call (.deserialize data) (env.Deserialize p data)
    let p ← exitOnErr r
    let ((out, ok), p) ← call .verifyCredentials (env.VerifyCredentials p)
    emit (.stdout (getUnicode ok ++ "\t" ++ env.Name p ++ " (type " ++ env.Kind p ++
      "), message: " ++ out ++ "\n"))

/-- The `Run` function of `verifyCmd` (cobra calls it with at least one argument). -/
def verifyCmd {P : Type} (env : Env P) (args : List String) : Run Unit := do
  let c ← exitOnErr (env.NewCrypt env.cfg.PublicRSAKey env.cfg.PrivateRSAKey)
  exitOnErr (env.NewBag env.cfg.BagPath)
  let r ← List_ env args
  let list ← exitOnErr r
  if list.length > 0 then
    let r ← promptPassword env env.cfg.PrivateRSAKey Event.stderr
    let pw ← exitOnErr r
    forRange (verifyEntry env c pw) (env.rangeOrder 0 list)
  else
    emit (.stdout "No matches found\n")

/-- The body of the second loop of `rotateCmd`. -/
def rotateEntry {P : Type} (env : Env P) (c : Crypt) (pw : Bytes) (e : String × String) :
    Run Unit := do
  let p ← exitOnErr (env.NewProfile e.2)
  if !(env.Capabilities p).Rotate then
    emit (.stdout ("Profile '" ++ e.1 ++ "' cannot be rotated because its of kind " ++ e.2 ++
      " which does not support key rotation. Skipping...\n"))
  else
    emit (.stdout ("Rotating " ++ e.1 ++ " (type " ++ env.Kind p ++ ")... "))
    let r ← Read env e.1 e.2
    let encrypted ← exitOnErr r
    let r ← call (.decrypt encrypted pw) (c.Decrypt encrypted pw)
    let data ← exitOnErr r
    let r ← call (.deserialize data) (env.Deserialize p data)
    let p ← exitOnErr r
    let (r, p) ← call .rotateCredentials (env.RotateCredentials p)
    let newSerialized ← exitOnErr r
    let newEncrypted ← exitOnErr (c.Encrypt newSerialized)
    let _err ← Write env (env.Name p) (env.Kind p) newEncrypted
    emit (.stdout "done!\n")

/-- The `Run` function of `rotateCmd` (cobra calls it with at least one argument).  The
error returned by `b.Write` is assigned to `err` and not looked at. -/
def rotateCmd {P : Type} (env : Env P) (args : List String) : Run Unit := do
  let c ← exitOnErr (env.NewCrypt env.cfg.PublicRSAKey env.cfg.PrivateRSAKey)
  exitOnErr (env.NewBag env.cfg.BagPath)
  let r ← List_ env args
  let list ← exitOnErr r
  if list.length > 0 then
    emit (.stdout "The following credentials are going to be rotated:\n")
    forRange (fun e => emit (.stdout ("\t" ++ e.1 ++ " (type " ++ e.2 ++ ")\n")))
      (env.rangeOrder 0 list)
    let r ← promptPassword env env.cfg.PrivateRSAKey Event.stderr
    let pw ← exitOnErr r
    forRange (rotateEntry env c pw) (env.rangeOrder 1 list)
  else
    emit (.stdout "No matches found\n")

/-! ## Reading a stored profile, as a function of the store -/

/-- What `b.Read`, `c.Decrypt` and `p.Deserialize` in a row yield for an entry:
the loaded profile, or the first error met. -/
def loadProfile {P : Type} (env : Env P) (c : Crypt) (pw : Bytes) (bag : Bag) (p : P)
    (name kind : String) : Except Err P :=
  match bagRead env bag name kind with
  | .error err => .error err
  | .ok encrypted =>
    match c.Decrypt encrypted pw with
    | .error err => .error err
    | .ok data => env.Deserialize p data

/-- The calls made while loading an entry, up to the first error. -/
def loadTrace {P : Type} (env : Env P) (c : Crypt) (pw : Bytes) (bag : Bag)
    (name kind : String) : List Event :=
  .read name kind ::
    match bagRead env bag name kind with
    | .error _ => []
    | .ok encrypted =>
      .decrypt encrypted pw ::
        match c.Decrypt encrypted pw with
        | .error _ => []
        | .ok data => [.deserialize data]

/-- What a matched entry contributes to a mount: an error when it cannot be
loaded, nothing when its type does not support mounting, else the target path
and content of its mount snippet. -/
def mountSnippetOf {P : Type} (env : Env P) (c : Crypt) (pw : Bytes) (bag : Bag)
    (e : String × String) : Except Err (Option (String × Bytes)) :=
  match env.NewProfile e.2 with
  | .error err => .error err
  | .ok p0 =>
    if (env.Capabilities p0).Mount then
      match loadProfile env c pw bag p0 e.1 e.2 with
      | .error err => .error err
      | .ok p => .ok (some (env.MountSnippet p))
    else .ok none

/-- The mount snippets of the matched profiles that support mounting, in the
order the entries are visited. -/
def mountSnippets {P : Type} (env : Env P) (c : Crypt) (pw : Bytes) (bag : Bag)
    (order : Listing) : List (String × Bytes) :=
  order.filterMap (fun e =>
    match mountSnippetOf env c pw bag e with
    | .ok (some s) => some s
    | _ => none)

/-- The buffer a list of snippets gives for target path `t`: the contents of the
snippets for `t` concatenated in order, and no buffer when none is for `t`. -/
def snippetsAt (t : String) (snips : List (String × Bytes)) : Option Bytes :=
  if snips.any (fun s => s.1 = t) then
    some (((snips.filter (fun s => s.1 = t)).map (fun s => s.2)).flatten)
  else none

/-- The four batch commands. -/
inductive Op
  | Show
  | Mount
  | Verify
  | Rotate
  deriving DecidableEq, Repr

/-- The `Run` function of a batch command. -/
def batchCmd {P : Type} (op : Op) (env : Env P) (args : List String) : Run Unit :=
  match op with
  | .Show => showCmd env args
  | .Mount => mountCmd env args
  | .Verify => verifyCmd env args
  | .Rotate => rotateCmd env args

/-- Whether an event may come from the loop of a batch command run with
passphrase `pw`: anything but a passphrase prompt, a mount, or a decryption
with other passphrase bytes. -/
def Event.inLoop (pw : Bytes) : Event → Bool
  | .stderr _ => false
  | .readPassword => false
  | .mount _ _ _ _ => false
  | .decrypt _ pw1 => pw1 = pw
  | _ => true

/-- The world `w1` continues `w` by events that may come from the loop of a
batch command run with passphrase `pw`. -/
def Grows (pw : Bytes) (w w1 : World) : Prop :=
  ∃ evs, w1.trace = w.trace ++ evs ∧ ∀ ev ∈ evs, Event.inLoop pw ev = true

/-- The loop of a batch command over the entries in the order visited (for
`mount`, starting from the empty `mountFiles`). -/
def batchLoop {P : Type} (op : Op) (env : Env P) (c : Crypt) (pw : Bytes) (order : Listing) :
    Run Unit :=
  match op with
  | .Show => forRange (showEntry env c pw) order
  | .Mount => do
    let _ ← mountLoop env c pw order []
    pure ()
  | .Verify => forRange (verifyEntry env c pw) order
  | .Rotate => forRange (rotateEntry env c pw) order

/-- Whether a profile type with capabilities `caps` is processed by a batch
command, rather than skipped. -/
def Op.capable (op : Op) (caps : Capabilities) : Bool :=
  match op with
  | .Show => true
  | .Mount => caps.Mount
  | .Verify => caps.Verify
  | .Rotate => caps.Rotate

/-- What a batch command writes for an entry before it reads it from the bag. -/
def Op.announce {P : Type} (op : Op) (env : Env P) (name : String) (p : P) : List Event :=
  match op with
  | .Rotate => [.stdout ("Rotating " ++ name ++ " (type " ++ env.Kind p ++ ")... ")]
  | _ => []

/-- What `promptPassword(cfg.PrivateRSAKey, os.Stderr)` adds to the trace. -/
def promptEvents {P : Type} (env : Env P) : List Event :=
  [.stderr ("Enter Password for '" ++ env.cfg.PrivateRSAKey ++ "': "), .readPassword,
    .stdout "\n"]

/-- The lines `rotate` prints before it asks for the passphrase. -/
def rotateNotice {P : Type} (env : Env P) (list : Listing) : List Event :=
  .stdout "The following credentials are going to be rotated:\n" ::
    (env.rangeOrder 0 list).map (fun e => .stdout ("\t" ++ e.1 ++ " (type " ++ e.2 ++ ")\n"))

/-- Whether an event is a call of `mount`. -/
def Event.isMount : Event → Bool
  | .mount _ _ _ _ => true
  | _ => false

/-- The skip warning of `mount` for an entry. -/
def mountSkipNotice (e : String × String) : Event :=
  .stdout ("Profile '" ++ e.1 ++ "' cannot be mounted because its of kind " ++ e.2 ++
    " which does not support mount. Skipping...\n")

/-! ## A concrete environment

Three profile types: `aws` (verify and rotate, no mount), `file` (mount and
verify, no rotate) and `note` (no capability); a toy envelope that prefixes one byte; a bag without faults.
The scenarios below are run in it. -/

/-- Profiles of the concrete environment. -/
structure DemoProfile where
  kind : String
  name : String
  secret : Bytes
  deriving DecidableEq, Repr

/-- Serialization of the concrete profiles: the length of the name, the name, the secret. -/
def demoSerialize (p : DemoProfile) : Bytes :=
  p.name.toList.length :: (p.name.toList.map Char.toNat ++ p.secret)

/-- Deserialization of the concrete profiles, into a profile of the receiver's type. -/
def demoDeserialize (q : DemoProfile) (data : Bytes) : Except Err DemoProfile :=
  match data with
  | [] => .error .DecryptionError
  | n :: rest =>
    if n ≤ rest.length then
      .ok ⟨q.kind, String.mk ((rest.take n).map Char.ofNat), rest.drop n⟩
    else .error .DecryptionError

/-- The envelope of the concrete environment; the passphrase is `[112, 119]`. -/
def demoCrypt : Crypt where
  Encrypt := fun m => .ok (42 :: m)
  Decrypt := fun encrypted pw =>
    if pw = [112, 119] then
      match encrypted with
      | 42 :: m => .ok m
      | _ => .error .DecryptionError
    else .error .AuthenticationError

/-- The concrete environment. -/
def demoEnv : Env DemoProfile where
  cfg := ⟨"id_rsa.pub", "id_rsa", "bag", "/mnt/scum", 10, false⟩
  flagKind := "aws"
  NewCrypt := fun _ _ => .ok demoCrypt
  NewBag := fun _ => .ok ()
  globMatch := fun pat name => pat = "*" || pat = name
  listFault := fun _ => none
  readFault := fun _ _ => none
  writeFault := fun _ _ _ => none
  rangeOrder := fun _ l => l
  NewProfile := fun kind =>
    if kind = "aws" ∨ kind = "file" ∨ kind = "note" then .ok ⟨kind, "", []⟩
    else .error .UnknownTypeError
  Prompt := fun p => { p with name := "prod-aws", secret := [1, 2, 3] }
  Serialize := fun p => .ok (demoSerialize p)
  Deserialize := demoDeserialize
  Name := fun p => p.name
  Kind := fun p => p.kind
  Capabilities := fun p =>
    if p.kind = "file" then ⟨true, true, false⟩
    else if p.kind = "aws" then ⟨false, true, true⟩
    else ⟨false, false, false⟩
  MountSnippet := fun p => ("credentials", p.secret)
  VerifyCredentials := fun p => (("valid", true), p)
  RotateCredentials := fun p =>
    (.ok (demoSerialize { p with secret := p.secret.map (fun b => b + 1) }),
      { p with secret := p.secret.map (fun b => b + 1) })
  Format := fun p => p.kind ++ " " ++ p.name
  ReadPassword := .ok [112, 119]

/-- A bag holding one `aws` entry `a` (secret 7) and one `file` entry `f` (secret 9). -/
def demoBag : Bag :=
  [⟨"a", "aws", [42, 1, 97, 7]⟩, ⟨"f", "file", [42, 1, 102, 9]⟩]

/-- The concrete environment with a bag whose every `Write` fails. -/
def demoEnvWriteFails : Env DemoProfile :=
  { demoEnv with writeFault := fun _ _ _ => some .StorageError }

/-- The concrete environment with a bag in which reading entry `a` fails. -/
def demoEnvReadFails : Env DemoProfile :=
  { demoEnv with readFault := fun name _ => if name = "a" then some .StorageError else none }

/-- The concrete bag with one more `file` entry, `g` (secret 5). -/
def demoBag2 : Bag :=
  demoBag ++ [⟨"g", "file", [42, 1, 103, 5]⟩]

/-- A bag holding two entries without any capability. -/
def demoNotes : Bag :=
  [⟨"m", "note", [42, 1, 109, 1]⟩, ⟨"n", "note", [42, 1, 110, 2]⟩]

/-- The concrete environment in which the user types a wrong passphrase. -/
def demoEnvWrongPassphrase : Env DemoProfile :=
  { demoEnv with ReadPassword := .ok [0] }

/-- The concrete bag after `add` has stored the profile `prod-aws`. -/
def demoBagAdded : Bag :=
  demoBag ++ [⟨"prod-aws", "aws", [42, 8, 112, 114, 111, 100, 45, 97, 119, 115, 1, 2, 3]⟩]

/-- The concrete environment with a rendering of profiles that shows the secret too. -/
def demoEnvShowSecret : Env DemoProfile :=
  { demoEnv with
    Format := fun p => p.kind ++ " " ++ p.name ++ " " ++ String.mk (p.secret.map Char.ofNat) }

/-- A bag holding the `aws` entry `a` with secret `7` (byte 55). -/
def demoBagKey : Bag :=
  [⟨"a", "aws", [42, 1, 97, 55]⟩]

/-- A bag whose entry `a` holds a payload that names its profile `f` (secret 7). -/
def demoBagMisnamed : Bag :=
  [⟨"a", "aws", [42, 1, 102, 7]⟩]

/-! ## Basic facts -/

section RunLemmas
variable {α β : Type}

@[simp] theorem Run.pure_apply (a : α) (w : World) : (pure a : Run α) w = .ok a w := rfl

@[simp] theorem Run.bind_apply (x : Run α) (f : α → Run β) (w : World) :
    (x >>= f) w = match x w with
      | .ok a w1 => f a w1
      | .exit code w1 => .exit code w1 := rfl

@[simp] theorem exitOnErr_ok (a : α) (w : World) :
    exitOnErr (.ok a : Except Err α) w = .ok a w := rfl

@[simp] theorem exitOnErr_error (err : Err) (w : World) :
    exitOnErr (.error err : Except Err α) w =
      .exit (-1) ⟨w.bag, w.trace ++ [.stderrErr err]⟩ := rfl

@[simp] theorem call_apply (ev : Event) (r : α) (w : World) :
    call ev r w = .ok r ⟨w.bag, w.trace ++ [ev]⟩ := rfl

@[simp] theorem emit_apply (ev : Event) (w : World) :
    emit ev w = .ok () ⟨w.bag, w.trace ++ [ev]⟩ := rfl

end RunLemmas

section EntryLemmas
variable {P : Type} (env : Env P) (c : Crypt) (pw : Bytes)

@[simp] theorem Read_apply (name kind : String) (w : World) :
    Read env name kind w =
      .ok (bagRead env w.bag name kind) ⟨w.bag, w.trace ++ [.read name kind]⟩ := rfl

@[simp] theorem List_apply (args : List String) (w : World) :
    List_ env args w = .ok (bagList env w.bag args) w := rfl

theorem promptPassword_apply (message : String) (out : String → Event) (w : World) :
    promptPassword env message out w =
      .ok env.ReadPassword ⟨w.bag, w.trace ++
        [out ("Enter Password for '" ++ message ++ "': "), .readPassword, .stdout "\n"]⟩ := by
  simp [promptPassword]

theorem showEntry_eq (name kind : String) (w : World) :
    showEntry env c pw (name, kind) w =
      match env.NewProfile kind with
      | .error err => .exit (-1) ⟨w.bag, w.trace ++ [.stderrErr err]⟩
      | .ok p0 =>
        match loadProfile env c pw w.bag p0 name kind with
        | .error err =>
          .exit (-1) ⟨w.bag, w.trace ++ loadTrace env c pw w.bag name kind ++ [.stderrErr err]⟩
        | .ok p =>
          .ok () ⟨w.bag, w.trace ++ loadTrace env c pw w.bag name kind ++
            [.profile (env.Format p)]⟩ := by
  unfold showEntry loadProfile loadTrace
  cases h1 : env.NewProfile kind <;> simp
  cases h2 : bagRead env w.bag name kind <;> simp
  rename_i p0 encrypted
  cases h3 : c.Decrypt encrypted pw <;> simp
  rename_i data
  cases h4 : env.Deserialize p0 data <;> simp

theorem mountEntry_eq (name kind : String) (mountFiles : Files) (w : World) :
    mountEntry env c pw (name, kind) mountFiles w =
      match env.NewProfile kind with
      | .error err => .exit (-1) ⟨w.bag, w.trace ++ [.stderrErr err]⟩
      | .ok p0 =>
        if (env.Capabilities p0).Mount then
          match loadProfile env c pw w.bag p0 name kind with
          | .error err =>
            .exit (-1) ⟨w.bag, w.trace ++ loadTrace env c pw w.bag name kind ++
              [.stderrErr err]⟩
          | .ok p =>
            .ok (mapSet mountFiles (env.MountSnippet p).1
                ((mapGet mountFiles (env.MountSnippet p).1).getD [] ++ (env.MountSnippet p).2))
              ⟨w.bag, w.trace ++ loadTrace env c pw w.bag name kind ++ [.mountSnippet]⟩
        else
          .ok mountFiles ⟨w.bag, w.trace ++ [.stdout ("Profile '" ++ name ++
            "' cannot be mounted because its of kind " ++ kind ++
            " which does not support mount. Skipping...\n")]⟩ := by
  unfold mountEntry loadProfile loadTrace
  cases h1 : env.NewProfile kind <;> simp
  rename_i p0
  cases hc : (env.Capabilities p0).Mount <;> simp
  cases h2 : bagRead env w.bag name kind <;> simp
  rename_i encrypted
  cases h3 : c.Decrypt encrypted pw <;> simp
  rename_i data
  cases h4 : env.Deserialize p0 data <;> simp

theorem verifyEntry_eq (name kind : String) (w : World) :
    verifyEntry env c pw (name, kind) w =
      match env.NewProfile kind with
      | .error err => .exit (-1) ⟨w.bag, w.trace ++ [.stderrErr err]⟩
      | .ok p0 =>
        if (env.Capabilities p0).Verify then
          match loadProfile env c pw w.bag p0 name kind with
          | .error err =>
            .exit (-1) ⟨w.bag, w.trace ++ loadTrace env c pw w.bag name kind ++
              [.stderrErr err]⟩
          | .ok p =>
            .ok () ⟨w.bag, w.trace ++ loadTrace env c pw w.bag name kind ++
              [.verifyCredentials,
               .stdout (getUnicode (env.VerifyCredentials p).1.2 ++ "\t" ++
                 env.Name (env.VerifyCredentials p).2 ++ " (type " ++
                 env.Kind (env.VerifyCredentials p).2 ++ "), message: " ++
                 (env.VerifyCredentials p).1.1 ++ "\n")]⟩
        else
          .ok () ⟨w.bag, w.trace ++ [.stdout ("Profile '" ++ name ++
            "' cannot be verified because its of kind " ++ kind ++
            " which does not support verification. Skipping...\n")]⟩ := by
  unfold verifyEntry loadProfile loadTrace
  cases h1 : env.NewProfile kind <;> simp
  rename_i p0
  cases hc : (env.Capabilities p0).Verify <;> simp
  cases h2 : bagRead env w.bag name kind <;> simp
  rename_i encrypted
  cases h3 : c.Decrypt encrypted pw <;> simp
  rename_i data
  cases h4 : env.Deserialize p0 data <;> simp

end EntryLemmas

section EntryLemmas2
variable {P : Type} (env : Env P) (c : Crypt) (pw : Bytes)

theorem rotateEntry_eq (name kind : String) (w : World) :
    rotateEntry env c pw (name, kind) w =
      match env.NewProfile kind with
      | .error err => .exit (-1) ⟨w.bag, w.trace ++ [.stderrErr err]⟩
      | .ok p0 =>
        if (env.Capabilities p0).Rotate then
          match loadProfile env c pw w.bag p0 name kind with
          | .error err =>
            .exit (-1) ⟨w.bag, w.trace ++
              .stdout ("Rotating " ++ name ++ " (type " ++ env.Kind p0 ++ ")... ") ::
              loadTrace env c pw w.bag name kind ++ [.stderrErr err]⟩
          | .ok p =>
            match (env.RotateCredentials p).1 with
            | .error err =>
              .exit (-1) ⟨w.bag, w.trace ++
                .stdout ("Rotating " ++ name ++ " (type " ++ env.Kind p0 ++ ")... ") ::
                loadTrace env c pw w.bag name kind ++ [.rotateCredentials, .stderrErr err]⟩
            | .ok newSerialized =>
              match c.Encrypt newSerialized with
              | .error err =>
                .exit (-1) ⟨w.bag, w.trace ++
                  .stdout ("Rotating " ++ name ++ " (type " ++ env.Kind p0 ++ ")... ") ::
                  loadTrace env c pw w.bag name kind ++ [.rotateCredentials, .stderrErr err]⟩
              | .ok newEncrypted =>
                .ok ()
                  ⟨match env.writeFault (env.Name (env.RotateCredentials p).2)
                      (env.Kind (env.RotateCredentials p).2) newEncrypted with
                    | some _ => w.bag
                    | none => bagWrite w.bag (env.Name (env.RotateCredentials p).2)
                        (env.Kind (env.RotateCredentials p).2) newEncrypted,
                   w.trace ++
                    .stdout ("Rotating " ++ name ++ " (type " ++ env.Kind p0 ++ ")... ") ::
                    loadTrace env c pw w.bag name kind ++
                    [.rotateCredentials,
                     .write (env.Name (env.RotateCredentials p).2)
                       (env.Kind (env.RotateCredentials p).2) newEncrypted,
                     .stdout "done!\n"]⟩
        else
          .ok () ⟨w.bag, w.trace ++ [.stdout ("Profile '" ++ name ++
            "' cannot be rotated because its of kind " ++ kind ++
            " which does not support key rotation. Skipping...\n")]⟩ := by
  unfold rotateEntry loadProfile loadTrace
  cases h1 : env.NewProfile kind <;> simp
  rename_i p0
  cases hc : (env.Capabilities p0).Rotate <;> simp
  cases h2 : bagRead env w.bag name kind <;> simp
  rename_i encrypted
  cases h3 : c.Decrypt encrypted pw <;> simp
  rename_i data
  cases h4 : env.Deserialize p0 data <;> simp
  rename_i p
  cases h5 : (env.RotateCredentials p).1 <;> simp
  rename_i newSerialized
  cases h6 : c.Encrypt newSerialized <;> simp
  rename_i newEncrypted
  simp [Write]
  cases h7 : env.writeFault (env.Name (env.RotateCredentials p).2)
      (env.Kind (env.RotateCredentials p).2) newEncrypted <;> simp

end EntryLemmas2

section LoopLemmas
variable {P : Type} (env : Env P) (c : Crypt) (pw : Bytes)

theorem forRange_nil (body : String × String → Run Unit) (w : World) :
    forRange body [] w = .ok () w := rfl

theorem forRange_cons (body : String × String → Run Unit) (e : String × String)
    (rest : Listing) (w : World) :
    forRange body (e :: rest) w =
      match body e w with
      | .ok _ w1 => forRange body rest w1
      | .exit code w1 => .exit code w1 := by
  rw [forRange, Run.bind_apply]; cases body e w <;> rfl

theorem forRange_append (body : String × String → Run Unit) (pre rest : Listing) (w : World) :
    forRange body (pre ++ rest) w =
      match forRange body pre w with
      | .ok _ w1 => forRange body rest w1
      | .exit code w1 => .exit code w1 := by
  induction pre generalizing w with
  | nil => simp [forRange_nil]
  | cons e pre ih =>
    simp only [List.cons_append, forRange_cons]
    cases h : body e w with
    | ok a w1 => simp [ih]
    | exit code w1 => simp

theorem mountLoop_nil (mountFiles : Files) (w : World) :
    mountLoop env c pw [] mountFiles w = .ok mountFiles w := rfl

theorem mountLoop_cons (e : String × String) (rest : Listing) (mountFiles : Files) (w : World) :
    mountLoop env c pw (e :: rest) mountFiles w =
      match mountEntry env c pw e mountFiles w with
      | .ok files1 w1 => mountLoop env c pw rest files1 w1
      | .exit code w1 => .exit code w1 := by
  rw [mountLoop, Run.bind_apply]; cases mountEntry env c pw e mountFiles w <;> rfl

theorem mountLoop_append (pre rest : Listing) (mountFiles : Files) (w : World) :
    mountLoop env c pw (pre ++ rest) mountFiles w =
      match mountLoop env c pw pre mountFiles w with
      | .ok files1 w1 => mountLoop env c pw rest files1 w1
      | .exit code w1 => .exit code w1 := by
  induction pre generalizing w mountFiles with
  | nil => simp [mountLoop_nil]
  | cons e pre ih =>
    simp only [List.cons_append, mountLoop_cons]
    cases h : mountEntry env c pw e mountFiles w with
    | ok a w1 => simp [ih]
    | exit code w1 => simp

theorem Grows.refl (w : World) : Grows pw w w := ⟨[], by simp, by simp⟩

theorem Grows.trans {w w1 w2 : World} (h1 : Grows pw w w1) (h2 : Grows pw w1 w2) :
    Grows pw w w2 := by
  obtain ⟨e1, t1, a1⟩ := h1
  obtain ⟨e2, t2, a2⟩ := h2
  refine ⟨e1 ++ e2, by rw [t2, t1, List.append_assoc], ?_⟩
  intro ev hev
  rcases List.mem_append.1 hev with h | h
  · exact a1 ev h
  · exact a2 ev h

theorem Grows.mk (w : World) (bag1 : Bag) (evs : List Event)
    (h : ∀ ev ∈ evs, Event.inLoop pw ev = true) : Grows pw w ⟨bag1, w.trace ++ evs⟩ :=
  ⟨evs, rfl, h⟩

theorem loadTrace_inLoop (bag : Bag) (name kind : String) :
    ∀ ev ∈ loadTrace env c pw bag name kind, Event.inLoop pw ev = true := by
  intro ev hev
  unfold loadTrace at hev
  cases h2 : bagRead env bag name kind with
  | error err => simp [h2] at hev; subst hev; rfl
  | ok encrypted =>
    cases h3 : c.Decrypt encrypted pw with
    | error err =>
      simp [h2, h3] at hev
      rcases hev with h | h <;> subst h <;> simp [Event.inLoop]
    | ok data =>
      simp [h2, h3] at hev
      rcases hev with h | h | h <;> subst h <;> simp [Event.inLoop]

theorem showEntry_grows (e : String × String) (w : World) :
    Grows pw w (showEntry env c pw e w).world := by
  obtain ⟨name, kind⟩ := e
  rw [showEntry_eq]
  have hl := loadTrace_inLoop env c pw w.bag name kind
  split
  · exact Grows.mk pw w _ _ (by simp [Event.inLoop])
  · split <;> simp only [Outcome.world, List.append_assoc] <;> apply Grows.mk <;>
      intro ev hev <;> rcases List.mem_append.1 hev with h | h <;>
      first
        | exact hl ev h
        | (simp at h; subst h; rfl)

theorem verifyEntry_grows (e : String × String) (w : World) :
    Grows pw w (verifyEntry env c pw e w).world := by
  obtain ⟨name, kind⟩ := e
  rw [verifyEntry_eq]
  have hl := loadTrace_inLoop env c pw w.bag name kind
  split
  · exact Grows.mk pw w _ _ (by simp [Event.inLoop])
  · split
    · split <;> simp only [Outcome.world, List.append_assoc] <;> apply Grows.mk <;>
        intro ev hev <;> rcases List.mem_append.1 hev with h | h <;>
        first
          | exact hl ev h
          | (simp at h; rcases h with h | h <;> subst h <;> rfl)
          | (simp at h; subst h; rfl)
    · exact Grows.mk pw w _ _ (by simp [Event.inLoop])

theorem mountEntry_grows (e : String × String) (mountFiles : Files) (w : World) :
    Grows pw w (mountEntry env c pw e mountFiles w).world := by
  obtain ⟨name, kind⟩ := e
  rw [mountEntry_eq]
  have hl := loadTrace_inLoop env c pw w.bag name kind
  split
  · exact Grows.mk pw w _ _ (by simp [Event.inLoop])
  · split
    · split <;> simp only [Outcome.world, List.append_assoc] <;> apply Grows.mk <;>
        intro ev hev <;> rcases List.mem_append.1 hev with h | h <;>
        first
          | exact hl ev h
          | (simp at h; subst h; rfl)
    · exact Grows.mk pw w _ _ (by simp [Event.inLoop])

theorem rotateEntry_grows (e : String × String) (w : World) :
    Grows pw w (rotateEntry env c pw e w).world := by
  obtain ⟨name, kind⟩ := e
  rw [rotateEntry_eq]
  have hl := loadTrace_inLoop env c pw w.bag name kind
  split
  · exact Grows.mk pw w _ _ (by simp [Event.inLoop])
  · split
    · split
      · simp only [Outcome.world]
        rw [List.append_assoc]
        apply Grows.mk
        intro ev hev
        simp only [List.cons_append, List.mem_cons, List.mem_append, List.mem_singleton,
          List.not_mem_nil, or_false] at hev
        rcases hev with h | h | h
        · subst h; rfl
        · exact hl ev h
        · subst h; rfl
      · split
        · simp only [Outcome.world]
          rw [List.append_assoc]
          apply Grows.mk
          intro ev hev
          simp only [List.cons_append, List.mem_cons, List.mem_append, List.mem_singleton,
            List.not_mem_nil, or_false] at hev
          rcases hev with h | h | h | h
          · subst h; rfl
          · exact hl ev h
          · subst h; rfl
          · subst h; rfl
        · split
          · simp only [Outcome.world]
            rw [List.append_assoc]
            apply Grows.mk
            intro ev hev
            simp only [List.cons_append, List.mem_cons, List.mem_append, List.mem_singleton,
              List.not_mem_nil, or_false] at hev
            rcases hev with h | h | h | h
            · subst h; rfl
            · exact hl ev h
            · subst h; rfl
            · subst h; rfl
          · simp only [Outcome.world]
            rw [List.append_assoc]
            apply Grows.mk
            intro ev hev
            simp only [List.cons_append, List.mem_cons, List.mem_append, List.mem_singleton,
              List.not_mem_nil, or_false] at hev
            rcases hev with h | h | h | h | h
            · subst h; rfl
            · exact hl ev h
            · subst h; rfl
            · subst h; rfl
            · subst h; rfl
    · exact Grows.mk pw w _ _ (by simp [Event.inLoop])

theorem forRange_grows (body : String × String → Run Unit)
    (hb : ∀ e w, Grows pw w (body e w).world) (l : Listing) (w : World) :
    Grows pw w (forRange body l w).world := by
  induction l generalizing w with
  | nil => exact Grows.refl pw w
  | cons e rest ih =>
    rw [forRange_cons]
    have h1 := hb e w
    cases h : body e w with
    | ok a w1 =>
      rw [h] at h1
      exact Grows.trans pw h1 (ih w1)
    | exit code w1 =>
      rw [h] at h1
      exact h1

theorem mountLoop_grows (l : Listing) (mountFiles : Files) (w : World) :
    Grows pw w (mountLoop env c pw l mountFiles w).world := by
  induction l generalizing w mountFiles with
  | nil => exact Grows.refl pw w
  | cons e rest ih =>
    rw [mountLoop_cons]
    have h1 := mountEntry_grows env c pw e mountFiles w
    cases h : mountEntry env c pw e mountFiles w with
    | ok a w1 =>
      rw [h] at h1
      exact Grows.trans pw h1 (ih a w1)
    | exit code w1 =>
      rw [h] at h1
      exact h1

end LoopLemmas

section CommandLemmas
variable {P : Type} (env : Env P) (c : Crypt)

theorem forRange_emit (f : String × String → Event) (l : Listing) (w : World) :
    forRange (fun e => emit (f e)) l w = .ok () ⟨w.bag, w.trace ++ l.map f⟩ := by
  induction l generalizing w with
  | nil => simp [forRange_nil]
  | cons e rest ih => simp [forRange_cons, ih]

theorem showCmd_eq (args : List String) (list : Listing) (w : World)
    (hCrypt : env.NewCrypt env.cfg.PublicRSAKey env.cfg.PrivateRSAKey = .ok c)
    (hBag : env.NewBag env.cfg.BagPath = .ok ())
    (hList : bagList env w.bag args = .ok list) :
    showCmd env args w =
      if list.length > 0 then
        match env.ReadPassword with
        | .error err => .exit (-1) ⟨w.bag, w.trace ++ promptEvents env ++ [.stderrErr err]⟩
        | .ok pw =>
          forRange (showEntry env c pw) (env.rangeOrder 0 list)
            ⟨w.bag, w.trace ++ promptEvents env⟩
      else .ok () ⟨w.bag, w.trace ++ [.stdout "No matches found\n"]⟩ := by
  unfold showCmd
  simp only [Run.bind_apply, hCrypt, hBag, exitOnErr_ok, List_apply, hList]
  by_cases hlen : list.length > 0
  · simp only [hlen, if_true, Run.bind_apply, promptPassword_apply]
    cases hpw : env.ReadPassword <;> simp [promptEvents]
  · simp [hlen]

theorem verifyCmd_eq (args : List String) (list : Listing) (w : World)
    (hCrypt : env.NewCrypt env.cfg.PublicRSAKey env.cfg.PrivateRSAKey = .ok c)
    (hBag : env.NewBag env.cfg.BagPath = .ok ())
    (hList : bagList env w.bag args = .ok list) :
    verifyCmd env args w =
      if list.length > 0 then
        match env.ReadPassword with
        | .error err => .exit (-1) ⟨w.bag, w.trace ++ promptEvents env ++ [.stderrErr err]⟩
        | .ok pw =>
          forRange (verifyEntry env c pw) (env.rangeOrder 0 list)
            ⟨w.bag, w.trace ++ promptEvents env⟩
      else .ok () ⟨w.bag, w.trace ++ [.stdout "No matches found\n"]⟩ := by
  unfold verifyCmd
  simp only [Run.bind_apply, hCrypt, hBag, exitOnErr_ok, List_apply, hList]
  by_cases hlen : list.length > 0
  · simp only [hlen, if_true, Run.bind_apply, promptPassword_apply]
    cases hpw : env.ReadPassword <;> simp [promptEvents]
  · simp [hlen]

theorem rotateCmd_eq (args : List String) (list : Listing) (w : World)
    (hCrypt : env.NewCrypt env.cfg.PublicRSAKey env.cfg.PrivateRSAKey = .ok c)
    (hBag : env.NewBag env.cfg.BagPath = .ok ())
    (hList : bagList env w.bag args = .ok list) :
    rotateCmd env args w =
      if list.length > 0 then
        match env.ReadPassword with
        | .error err =>
          .exit (-1) ⟨w.bag, w.trace ++ (rotateNotice env list ++ promptEvents env) ++
            [.stderrErr err]⟩
        | .ok pw =>
          forRange (rotateEntry env c pw) (env.rangeOrder 1 list)
            ⟨w.bag, w.trace ++ (rotateNotice env list ++ promptEvents env)⟩
      else .ok () ⟨w.bag, w.trace ++ [.stdout "No matches found\n"]⟩ := by
  unfold rotateCmd
  simp only [Run.bind_apply, hCrypt, hBag, exitOnErr_ok, List_apply, hList]
  by_cases hlen : list.length > 0
  · simp only [hlen, if_true, Run.bind_apply, promptPassword_apply, emit_apply, forRange_emit]
    cases hpw : env.ReadPassword <;> simp [promptEvents, rotateNotice]
  · simp [hlen]

theorem mountCmd_eq (args : List String) (list : Listing) (w : World)
    (hCrypt : env.NewCrypt env.cfg.PublicRSAKey env.cfg.PrivateRSAKey = .ok c)
    (hBag : env.NewBag env.cfg.BagPath = .ok ())
    (hList : bagList env w.bag args = .ok list) :
    mountCmd env args w =
      if list.length > 0 then
        match env.ReadPassword with
        | .error err => .exit (-1) ⟨w.bag, w.trace ++ promptEvents env ++ [.stderrErr err]⟩
        | .ok pw =>
          match mountLoop env c pw (env.rangeOrder 0 list) []
              ⟨w.bag, w.trace ++ promptEvents env⟩ with
          | .exit code w1 => .exit code w1
          | .ok mountFiles w1 =>
            .ok () ⟨w1.bag, w1.trace ++
              [.stdout ("Mounting credentials at " ++ env.cfg.Mountpoint ++ "\n"),
               .mount env.cfg.Mountpoint mountFiles env.cfg.MountTimeout env.cfg.Debug]⟩
      else .ok () ⟨w.bag, w.trace ++ [.stdout "No matches found\n"]⟩ := by
  unfold mountCmd
  simp only [Run.bind_apply, hCrypt, hBag, exitOnErr_ok, List_apply, hList]
  by_cases hlen : list.length > 0
  · simp only [hlen, if_true, Run.bind_apply, promptPassword_apply]
    cases hpw : env.ReadPassword with
    | error err => simp [promptEvents]
    | ok pw =>
      simp only [exitOnErr_ok, promptEvents]
      cases hl : mountLoop env c pw (env.rangeOrder 0 list) []
        ⟨w.bag, w.trace ++ [.stderr ("Enter Password for '" ++ env.cfg.PrivateRSAKey ++ "': "),
          .readPassword, .stdout "\n"]⟩ <;> simp
  · simp [hlen]

end CommandLemmas

section MountLemmas
variable {P : Type} (env : Env P) (c : Crypt) (pw : Bytes)

theorem mountEntry_bag (e : String × String) (mountFiles : Files) (w : World) :
    (mountEntry env c pw e mountFiles w).world.bag = w.bag := by
  obtain ⟨name, kind⟩ := e
  rw [mountEntry_eq]
  repeat' split
  all_goals rfl

/-- An entry that cannot be loaded ends the process. -/
theorem mountEntry_of_error (e : String × String) (mountFiles : Files) (w : World) (err : Err)
    (h : mountSnippetOf env c pw w.bag e = .error err) :
    ∃ w1, mountEntry env c pw e mountFiles w = .exit (-1) w1 := by
  obtain ⟨name, kind⟩ := e
  rw [mountEntry_eq]
  unfold mountSnippetOf at h
  cases h1 : env.NewProfile kind with
  | error err1 => exact ⟨_, rfl⟩
  | ok p0 =>
    simp only [h1] at h
    cases hc : (env.Capabilities p0).Mount with
    | false => simp [hc] at h
    | true =>
      simp only [hc, if_true] at h
      cases h2 : loadProfile env c pw w.bag p0 name kind with
      | error err2 =>
        simp only [hc, h2, if_true]
        exact ⟨_, rfl⟩
      | ok p => simp [h2] at h

/-- An entry that is skipped or loaded: what it leaves in `mountFiles`. -/
theorem mountEntry_of_ok (e : String × String) (mountFiles : Files) (w : World)
    (s : Option (String × Bytes)) (h : mountSnippetOf env c pw w.bag e = .ok s) :
    ∃ w1, mountEntry env c pw e mountFiles w =
      .ok (match s with
        | none => mountFiles
        | some s => mapSet mountFiles s.1 ((mapGet mountFiles s.1).getD [] ++ s.2)) w1 := by
  obtain ⟨name, kind⟩ := e
  rw [mountEntry_eq]
  unfold mountSnippetOf at h
  cases h1 : env.NewProfile kind with
  | error err1 => simp [h1] at h
  | ok p0 =>
    simp only [h1] at h
    cases hc : (env.Capabilities p0).Mount with
    | false =>
      simp only [hc] at h
      simp only [Bool.false_eq_true, if_false, Except.ok.injEq] at h
      subst h
      simp only [hc, Bool.false_eq_true, if_false]
      exact ⟨_, rfl⟩
    | true =>
      simp only [hc, if_true] at h
      cases h2 : loadProfile env c pw w.bag p0 name kind with
      | error err2 => simp [h2] at h
      | ok p =>
        simp only [h2, Except.ok.injEq] at h
        subst h
        simp only [hc, h2, if_true]
        exact ⟨_, rfl⟩

theorem mountLoop_of_error (l : Listing) (mountFiles : Files) (w : World)
    (h : ∃ e ∈ l, ∃ err, mountSnippetOf env c pw w.bag e = .error err) :
    ∃ code w1, mountLoop env c pw l mountFiles w = .exit code w1 := by
  induction l generalizing w mountFiles with
  | nil => simp at h
  | cons e rest ih =>
    rw [mountLoop_cons]
    have hb := mountEntry_bag env c pw e mountFiles w
    cases he : mountEntry env c pw e mountFiles w with
    | exit code w1 => exact ⟨code, w1, rfl⟩
    | ok files1 w1 =>
      rw [he] at hb
      simp only [Outcome.world] at hb
      obtain ⟨e1, hmem, err, herr⟩ := h
      rcases List.mem_cons.1 hmem with h0 | h0
      · subst h0
        obtain ⟨w2, hw2⟩ := mountEntry_of_error env c pw e1 mountFiles w err herr
        rw [he] at hw2
        simp at hw2
      · exact ih files1 w1 ⟨e1, h0, err, by rw [hb]; exact herr⟩

theorem mountLoop_all_skipped (l : Listing) (mountFiles : Files) (w : World)
    (h : ∀ e ∈ l, ∃ p, env.NewProfile e.2 = .ok p ∧ (env.Capabilities p).Mount = false) :
    mountLoop env c pw l mountFiles w =
      .ok mountFiles ⟨w.bag, w.trace ++ l.map mountSkipNotice⟩ := by
  induction l generalizing w with
  | nil => simp [mountLoop_nil]
  | cons e rest ih =>
    obtain ⟨p, hNew, hCap⟩ := h e (List.mem_cons_self _ _)
    obtain ⟨name, kind⟩ := e
    rw [mountLoop_cons, mountEntry_eq]
    simp only at hNew
    simp only [hNew, hCap, Bool.false_eq_true, if_false]
    rw [ih _ (fun e1 h1 => h e1 (List.mem_cons_of_mem _ h1))]
    simp [mountSkipNotice]

end MountLemmas

section FilesLemmas
variable {P : Type} (env : Env P) (c : Crypt) (pw : Bytes)

theorem mapGet_mapSet (m : Files) (k : String) (v : Bytes) (t : String) :
    mapGet (mapSet m k v) t = if k = t then some v else mapGet m t := by
  induction m with
  | nil => simp [mapSet, mapGet]
  | cons kv rest ih =>
    obtain ⟨k1, v1⟩ := kv
    by_cases h1 : k1 = k
    · subst h1
      by_cases h2 : k1 = t <;> simp [mapSet, mapGet, h2]
    · by_cases h2 : k1 = t
      · subst h2
        simp [mapSet, mapGet, h1, Ne.symm h1]
      · simp [mapSet, mapGet, h1, h2, ih]

theorem filter_eq_nil_of_any_false {α : Type} (p : α → Bool) (l : List α)
    (h : l.any p = false) : l.filter p = [] := by
  induction l with
  | nil => rfl
  | cons a rest ih =>
    simp only [List.any_cons, Bool.or_eq_false_iff] at h
    simp [List.filter_cons, h.1, ih h.2]

theorem snippetsAt_nil (t : String) : snippetsAt t [] = none := by
  simp [snippetsAt]

theorem snippetsAt_cons (t : String) (s : String × Bytes) (rest : List (String × Bytes)) :
    snippetsAt t (s :: rest) =
      if s.1 = t then some (s.2 ++ (snippetsAt t rest).getD []) else snippetsAt t rest := by
  unfold snippetsAt
  by_cases h : s.1 = t
  · cases h2 : rest.any (fun s => decide (s.1 = t)) with
    | true => simp [List.filter_cons, h]
    | false =>
      have h3 := filter_eq_nil_of_any_false _ _ h2
      simp [List.filter_cons, h, h3]
  · simp only [List.any_cons, List.filter_cons, h, decide_False, Bool.false_or,
      Bool.false_eq_true, if_false]

theorem mountSnippets_nil (bag : Bag) : mountSnippets env c pw bag [] = [] := rfl

theorem mountSnippets_cons (bag : Bag) (e : String × String) (rest : Listing) :
    mountSnippets env c pw bag (e :: rest) =
      match mountSnippetOf env c pw bag e with
      | .ok (some s) => s :: mountSnippets env c pw bag rest
      | _ => mountSnippets env c pw bag rest := by
  unfold mountSnippets
  rw [List.filterMap_cons]
  cases h : mountSnippetOf env c pw bag e with
  | error err => simp
  | ok s => cases s <;> simp

/-- What the loop of `mount` leaves in `mountFiles` when it runs to its end. -/
theorem mountLoop_files (l : Listing) (mountFiles files1 : Files) (w w1 : World)
    (h : mountLoop env c pw l mountFiles w = .ok files1 w1) (t : String) :
    mapGet files1 t =
      match snippetsAt t (mountSnippets env c pw w.bag l) with
      | none => mapGet mountFiles t
      | some b => some ((mapGet mountFiles t).getD [] ++ b) := by
  induction l generalizing w mountFiles with
  | nil =>
    rw [mountLoop_nil] at h
    simp only [Outcome.ok.injEq] at h
    rw [mountSnippets_nil, snippetsAt_nil, h.1]
  | cons e rest ih =>
    rw [mountLoop_cons] at h
    rw [mountSnippets_cons]
    have hb := mountEntry_bag env c pw e mountFiles w
    cases hs : mountSnippetOf env c pw w.bag e with
    | error err =>
      obtain ⟨w2, hw2⟩ := mountEntry_of_error env c pw e mountFiles w err hs
      simp [hw2] at h
    | ok s =>
      obtain ⟨w2, hw2⟩ := mountEntry_of_ok env c pw e mountFiles w s hs
      rw [hw2] at h hb
      simp only [Outcome.world] at hb
      have ih1 := ih _ _ h
      rw [hb] at ih1
      rw [ih1]
      cases s with
      | none => rfl
      | some s =>
        simp only [snippetsAt_cons, mapGet_mapSet]
        by_cases hp : s.1 = t
        · cases hr : snippetsAt t (mountSnippets env c pw w.bag rest) <;> simp [hp]
        · cases hr : snippetsAt t (mountSnippets env c pw w.bag rest) <;> simp [hp]

end FilesLemmas

section MountCommand
variable {P : Type} (env : Env P)

theorem countP_isMount_of_inLoop {pw : Bytes} {evs : List Event}
    (h : ∀ ev ∈ evs, Event.inLoop pw ev = true) : evs.countP Event.isMount = 0 := by
  rw [List.countP_eq_zero]
  intro ev hev
  have := h ev hev
  cases ev <;> simp_all [Event.inLoop, Event.isMount]

theorem countP_isMount_promptEvents : (promptEvents env).countP Event.isMount = 0 := by
  simp [promptEvents, List.countP_cons, Event.isMount]

theorem not_mem_of_countP_isMount {evs : List Event} (h : evs.countP Event.isMount = 0)
    (mp : String) (files : Files) (t : Int) (d : Bool) : Event.mount mp files t d ∉ evs := by
  intro hmem
  rw [List.countP_eq_zero] at h
  have := h _ hmem
  simp [Event.isMount] at this

/-- The two ways an invocation of `mount` can go: no call of `mount` at all, or the
loop runs to its end and the one call of `mount`, with the `mountFiles` of the loop, is
the last thing done. -/
theorem mountCmd_cases (args : List String) (bag : Bag) :
    (mountCmd env args ⟨bag, []⟩).world.trace.countP Event.isMount = 0 ∨
    ∃ c list pw mountFiles w1,
      env.NewCrypt env.cfg.PublicRSAKey env.cfg.PrivateRSAKey = .ok c ∧
      bagList env bag args = .ok list ∧
      env.ReadPassword = .ok pw ∧
      mountLoop env c pw (env.rangeOrder 0 list) [] ⟨bag, [] ++ promptEvents env⟩ =
        .ok mountFiles w1 ∧
      w1.trace.countP Event.isMount = 0 ∧
      mountCmd env args ⟨bag, []⟩ =
        .ok () ⟨w1.bag, w1.trace ++
          [.stdout ("Mounting credentials at " ++ env.cfg.Mountpoint ++ "\n"),
           .mount env.cfg.Mountpoint mountFiles env.cfg.MountTimeout env.cfg.Debug]⟩ := by
  cases hCrypt : env.NewCrypt env.cfg.PublicRSAKey env.cfg.PrivateRSAKey with
  | error err =>
    left
    simp [mountCmd, hCrypt, Outcome.world, List.countP_cons, Event.isMount]
  | ok c =>
    cases hBag : env.NewBag env.cfg.BagPath with
    | error err =>
      left
      simp [mountCmd, hCrypt, hBag, Outcome.world, List.countP_cons, Event.isMount]
    | ok u =>
      cases hList : bagList env bag args with
      | error err =>
        left
        simp [mountCmd, hCrypt, hBag, hList, Outcome.world, List.countP_cons, Event.isMount]
      | ok list =>
        rw [mountCmd_eq env c args list ⟨bag, []⟩ hCrypt hBag hList]
        by_cases hlen : list.length > 0
        · simp only [hlen, if_true]
          cases hPw : env.ReadPassword with
          | error err =>
            left
            simp [Outcome.world, List.countP_append, countP_isMount_promptEvents,
              List.countP_cons, Event.isMount]
          | ok pw =>
            have hg := mountLoop_grows env c pw (env.rangeOrder 0 list) []
              ⟨bag, [] ++ promptEvents env⟩
            obtain ⟨evs, ht, hall⟩ := hg
            have hcount : (mountLoop env c pw (env.rangeOrder 0 list) []
                ⟨bag, [] ++ promptEvents env⟩).world.trace.countP Event.isMount = 0 := by
              rw [ht]
              simp [List.countP_append, countP_isMount_promptEvents,
                countP_isMount_of_inLoop hall]
            cases hl : mountLoop env c pw (env.rangeOrder 0 list) []
                ⟨bag, [] ++ promptEvents env⟩ with
            | exit code w1 =>
              left
              rw [hl] at hcount
              simp only [hl]
              exact hcount
            | ok mountFiles w1 =>
              right
              rw [hl] at hcount
              exact ⟨c, list, pw, mountFiles, w1, rfl, rfl, rfl, hl, hcount, by simp only [hl]⟩
        · left
          simp [hlen, Outcome.world, List.countP_cons, Event.isMount]

end MountCommand

/-! ## Capability gating (C1, C9) -/

/-- C1: in `rotate`, a matched entry whose profile type has `Capabilities().Rotate == false`
is skipped: processing it calls `b.Write` for nothing and leaves the bag exactly as it
was, the only thing it does is print the skip message, and it ends without an error exit,
so the loop goes on. -/
theorem rotate_unsupported_entry_untouched {P : Type} (env : Env P) (c : Crypt) (pw : Bytes)
    (name kind : String) (p : P) (w : World)
    (hNew : env.NewProfile kind = .ok p)
    (hCap : (env.Capabilities p).Rotate = false) :
    rotateEntry env c pw (name, kind) w =
      .ok () ⟨w.bag, w.trace ++ [.stdout ("Profile '" ++ name ++
        "' cannot be rotated because its of kind " ++ kind ++
        " which does not support key rotation. Skipping...\n")]⟩ := by
  rw [rotateEntry_eq]
  simp [hNew, hCap]

/-- Witness for C1: the `file` entry of the concrete bag under `rotate`. -/
theorem rotate_unsupported_entry_untouched_witness :
    demoEnv.NewProfile "file" = .ok ⟨"file", "", []⟩ ∧
    (demoEnv.Capabilities ⟨"file", "", []⟩).Rotate = false ∧
    rotateEntry demoEnv demoCrypt [112, 119] ("f", "file") ⟨demoBag, []⟩ =
      .ok () ⟨demoBag, [.stdout ("Profile 'f' cannot be rotated because its of kind file" ++
        " which does not support key rotation. Skipping...\n")]⟩ :=
  ⟨rfl, rfl,
    rotate_unsupported_entry_untouched demoEnv demoCrypt [112, 119] "f" "file"
      ⟨"file", "", []⟩ ⟨demoBag, []⟩ rfl rfl⟩

/-- C9: in `mount`, `verify` and `rotate`, when the loop reaches (in any state `w`) a
matched entry whose profile type lacks the capability of the command, going through that
entry and the remaining ones is the same as appending the one skip warning to the trace
and going through the remaining ones: for the entry itself there is no call of `b.Read`,
`c.Decrypt`, `p.Deserialize`, `p.MountSnippet`, `p.VerifyCredentials` or
`p.RotateCredentials`, the bag and `mountFiles` stay as they were, and the remaining
entries are processed. -/
theorem unsupported_entry_skipped_batch_continues {P : Type} (env : Env P) (c : Crypt)
    (pw : Bytes) (name kind : String) (p : P) (rest : Listing) (w : World)
    (hNew : env.NewProfile kind = .ok p) :
    ((env.Capabilities p).Mount = false → ∀ mountFiles : Files,
      mountLoop env c pw ((name, kind) :: rest) mountFiles w =
        mountLoop env c pw rest mountFiles
          ⟨w.bag, w.trace ++ [.stdout ("Profile '" ++ name ++
            "' cannot be mounted because its of kind " ++ kind ++
            " which does not support mount. Skipping...\n")]⟩) ∧
    ((env.Capabilities p).Verify = false →
      forRange (verifyEntry env c pw) ((name, kind) :: rest) w =
        forRange (verifyEntry env c pw) rest
          ⟨w.bag, w.trace ++ [.stdout ("Profile '" ++ name ++
            "' cannot be verified because its of kind " ++ kind ++
            " which does not support verification. Skipping...\n")]⟩) ∧
    ((env.Capabilities p).Rotate = false →
      forRange (rotateEntry env c pw) ((name, kind) :: rest) w =
        forRange (rotateEntry env c pw) rest
          ⟨w.bag, w.trace ++ [.stdout ("Profile '" ++ name ++
            "' cannot be rotated because its of kind " ++ kind ++
            " which does not support key rotation. Skipping...\n")]⟩) := by
  refine ⟨?_, ?_, ?_⟩
  · intro hCap mountFiles
    rw [mountLoop_cons, mountEntry_eq]
    simp [hNew, hCap]
  · intro hCap
    rw [forRange_cons, verifyEntry_eq]
    simp [hNew, hCap]
  · intro hCap
    rw [forRange_cons, rotateEntry_eq]
    simp [hNew, hCap]

/-- Witness for C9: a `note` entry (no capability) followed by the `file` entry `f`. -/
theorem unsupported_entry_skipped_batch_continues_witness :
    demoEnv.NewProfile "note" = .ok ⟨"note", "", []⟩ ∧
    mountLoop demoEnv demoCrypt [112, 119] [("n", "note"), ("f", "file")] [] ⟨demoBag, []⟩ =
      .ok [("credentials", [9])] ⟨demoBag,
        [.stdout ("Profile 'n' cannot be mounted because its of kind note" ++
          " which does not support mount. Skipping...\n"),
         .read "f" "file", .decrypt [42, 1, 102, 9] [112, 119], .deserialize [1, 102, 9],
         .mountSnippet]⟩ ∧
    forRange (verifyEntry demoEnv demoCrypt [112, 119]) [("n", "note"), ("f", "file")]
        ⟨demoBag, []⟩ =
      .ok () ⟨demoBag,
        [.stdout ("Profile 'n' cannot be verified because its of kind note" ++
          " which does not support verification. Skipping...\n"),
         .read "f" "file", .decrypt [42, 1, 102, 9] [112, 119], .deserialize [1, 102, 9],
         .verifyCredentials, .stdout "✔\tf (type file), message: valid\n"]⟩ ∧
    forRange (rotateEntry demoEnv demoCrypt [112, 119]) [("n", "note"), ("a", "aws")]
        ⟨demoBag, []⟩ =
      .ok () ⟨[⟨"f", "file", [42, 1, 102, 9]⟩, ⟨"a", "aws", [42, 1, 97, 8]⟩],
        [.stdout ("Profile 'n' cannot be rotated because its of kind note" ++
          " which does not support key rotation. Skipping...\n"),
         .stdout "Rotating a (type aws)... ",
         .read "a" "aws", .decrypt [42, 1, 97, 7] [112, 119], .deserialize [1, 97, 7],
         .rotateCredentials, .write "a" "aws" [42, 1, 97, 8], .stdout "done!\n"]⟩ :=
  have h := unsupported_entry_skipped_batch_continues demoEnv demoCrypt [112, 119] "n" "note"
    ⟨"note", "", []⟩
  ⟨rfl,
    ((h [("f", "file")] ⟨demoBag, []⟩ rfl).1 rfl []).trans (by decide),
    ((h [("f", "file")] ⟨demoBag, []⟩ rfl).2.1 rfl).trans (by decide),
    ((h [("a", "aws")] ⟨demoBag, []⟩ rfl).2.2 rfl).trans (by decide)⟩

/-! ## Rotation: a failed write (C2) -/

/-- C2, the code at the failing input: `rotate a` on the concrete bag when `b.Write`
fails with `StorageError` after `RotateCredentials` has issued new material.  The
command prints `done!`, writes nothing to standard error and returns normally; the
bag still holds the old ciphertext. -/
theorem rotate_failed_write_prints_done :
    rotateCmd demoEnvWriteFails ["a"] ⟨demoBag, []⟩ =
      .ok () ⟨demoBag,
        [.stdout "The following credentials are going to be rotated:\n",
         .stdout "\ta (type aws)\n",
         .stderr "Enter Password for 'id_rsa': ", .readPassword, .stdout "\n",
         .stdout "Rotating a (type aws)... ",
         .read "a" "aws", .decrypt [42, 1, 97, 7] [112, 119], .deserialize [1, 97, 7],
         .rotateCredentials, .write "a" "aws" [42, 1, 97, 8], .stdout "done!\n"]⟩ ∧
    demoEnvWriteFails.writeFault "a" "aws" [42, 1, 97, 8] = some .StorageError := by
  decide

/-! ## Faults on one entry of a batch (C3) -/

/-- C3 as stated fails: `show *` on the concrete bag, entries visited in the order `a`,
`f`, when reading entry `a` fails.  The process exits with status -1 right after
reporting the fault; entry `f`, which on its own is read and shown without error, is
never read. -/
theorem show_aborts_on_entry_fault :
    showCmd demoEnvReadFails ["*"] ⟨demoBag, []⟩ =
      .exit (-1) ⟨demoBag,
        [.stderr "Enter Password for 'id_rsa': ", .readPassword, .stdout "\n",
         .read "a" "aws", .stderrErr .StorageError]⟩ ∧
    Event.read "f" "file" ∉ (showCmd demoEnvReadFails ["*"] ⟨demoBag, []⟩).world.trace ∧
    showEntry demoEnvReadFails demoCrypt [112, 119] ("f", "file") ⟨demoBag, []⟩ =
      .ok () ⟨demoBag, [.read "f" "file", .decrypt [42, 1, 102, 9] [112, 119],
        .deserialize [1, 102, 9], .profile "file f"]⟩ := by
  decide

/-- C3 amended: in each of `show`, `mount`, `verify` and `rotate`, when the entries `pre`
have been processed and `b.Read`, `c.Decrypt` or `p.Deserialize` fails for the next entry
(one the command does not skip), the error is printed to standard error, nothing more is
done for that entry, and the process exits with status -1: whatever entries `post`
remain, none is processed. -/
theorem entry_fault_aborts_invocation {P : Type} (op : Op) (env : Env P) (c : Crypt)
    (pw : Bytes) (pre post : Listing) (name kind : String) (p0 : P) (err : Err)
    (w w1 : World)
    (hPre : batchLoop op env c pw pre w = .ok () w1)
    (hNew : env.NewProfile kind = .ok p0)
    (hCap : op.capable (env.Capabilities p0) = true)
    (hFault : loadProfile env c pw w1.bag p0 name kind = .error err) :
    batchLoop op env c pw (pre ++ (name, kind) :: post) w =
      .exit (-1) ⟨w1.bag, w1.trace ++ (op.announce env name p0 ++
        loadTrace env c pw w1.bag name kind ++ [.stderrErr err])⟩ := by
  cases op with
  | Show =>
    simp only [batchLoop] at hPre ⊢
    rw [forRange_append, hPre]
    simp only [forRange_cons, showEntry_eq, hNew, hFault]
    simp [Op.announce]
  | Mount =>
    simp only [batchLoop, Run.bind_apply] at hPre ⊢
    rw [mountLoop_append]
    cases hl : mountLoop env c pw pre [] w with
    | exit code w2 => simp [hl] at hPre
    | ok files1 w2 =>
      simp only [hl, Run.pure_apply, Outcome.ok.injEq, true_and] at hPre
      subst hPre
      simp only [Op.capable] at hCap
      simp only [mountLoop_cons, mountEntry_eq, hNew, hFault, hCap]
      simp [Op.announce]
  | Verify =>
    simp only [batchLoop] at hPre ⊢
    rw [forRange_append, hPre]
    simp only [Op.capable] at hCap
    simp only [forRange_cons, verifyEntry_eq, hNew, hFault, hCap]
    simp [Op.announce]
  | Rotate =>
    simp only [batchLoop] at hPre ⊢
    rw [forRange_append, hPre]
    simp only [Op.capable] at hCap
    simp only [forRange_cons, rotateEntry_eq, hNew, hFault, hCap]
    simp [Op.announce]

/-- Witness for C3 amended: `show` over `a`, `f` when reading `a` fails. -/
theorem entry_fault_aborts_invocation_witness :
    batchLoop .Show demoEnvReadFails demoCrypt [112, 119] [] ⟨demoBag, []⟩ =
      .ok () ⟨demoBag, []⟩ ∧
    demoEnvReadFails.NewProfile "aws" = .ok ⟨"aws", "", []⟩ ∧
    loadProfile demoEnvReadFails demoCrypt [112, 119] demoBag ⟨"aws", "", []⟩ "a" "aws" =
      .error .StorageError ∧
    batchLoop .Show demoEnvReadFails demoCrypt [112, 119] ([] ++ ("a", "aws") :: [("f", "file")])
        ⟨demoBag, []⟩ =
      .exit (-1) ⟨demoBag, [.read "a" "aws", .stderrErr .StorageError]⟩ :=
  ⟨rfl, rfl, rfl,
    (entry_fault_aborts_invocation .Show demoEnvReadFails demoCrypt [112, 119] []
      [("f", "file")] "a" "aws" ⟨"aws", "", []⟩ .StorageError ⟨demoBag, []⟩ ⟨demoBag, []⟩
      rfl rfl rfl rfl).trans (by decide)⟩

/-! ## The passphrase (C8) -/

theorem inLoop_count_readPassword {pw : Bytes} {evs : List Event}
    (h : ∀ ev ∈ evs, Event.inLoop pw ev = true) : evs.count Event.readPassword = 0 := by
  rw [List.count_eq_zero]
  intro hmem
  have := h _ hmem
  simp [Event.inLoop] at this

theorem inLoop_decrypt {pw : Bytes} {evs : List Event}
    (h : ∀ ev ∈ evs, Event.inLoop pw ev = true) {encrypted pw1 : Bytes}
    (hmem : Event.decrypt encrypted pw1 ∈ evs) : pw1 = pw := by
  have := h _ hmem
  simpa [Event.inLoop] using this

theorem count_readPassword_promptEvents {P : Type} (env : Env P) :
    (promptEvents env).count Event.readPassword = 1 := by
  simp [promptEvents, List.count_cons]

theorem decrypt_not_mem_promptEvents {P : Type} (env : Env P) (encrypted pw1 : Bytes) :
    Event.decrypt encrypted pw1 ∉ promptEvents env := by
  simp [promptEvents]

theorem count_readPassword_rotateNotice {P : Type} (env : Env P) (list : Listing) :
    (rotateNotice env list).count Event.readPassword = 0 := by
  rw [List.count_eq_zero]
  simp [rotateNotice]

theorem decrypt_not_mem_rotateNotice {P : Type} (env : Env P) (list : Listing)
    (encrypted pw1 : Bytes) : Event.decrypt encrypted pw1 ∉ rotateNotice env list := by
  simp [rotateNotice]

/-- The passphrase facts for a loop that starts after the prompt. -/
theorem passphrase_after_prompt {pw : Bytes} {w w1 : World} (n : Nat)
    (hw : w.trace.count Event.readPassword = n)
    (hd : ∀ encrypted pw1, Event.decrypt encrypted pw1 ∉ w.trace)
    (hg : Grows pw w w1) :
    w1.trace.count Event.readPassword = n ∧
      ∀ encrypted pw1, Event.decrypt encrypted pw1 ∈ w1.trace → pw1 = pw := by
  obtain ⟨evs, ht, hall⟩ := hg
  rw [ht]
  refine ⟨by rw [List.count_append, hw, inLoop_count_readPassword hall, Nat.add_zero], ?_⟩
  intro encrypted pw1 hmem
  rcases List.mem_append.1 hmem with h | h
  · exact absurd h (hd encrypted pw1)
  · exact inLoop_decrypt hall h

/-- C8: in each of `show`, `mount`, `verify` and `rotate`, once the listing of the bag
is obtained, `terminal.ReadPassword` is called exactly once when the listing has at
least one entry and not at all when it has none, and every call of `c.Decrypt` of the
invocation gets the very bytes that this one prompt returned. -/
theorem passphrase_prompted_once {P : Type} (op : Op) (env : Env P) (c : Crypt)
    (args : List String) (bag : Bag) (list : Listing)
    (hCrypt : env.NewCrypt env.cfg.PublicRSAKey env.cfg.PrivateRSAKey = .ok c)
    (hBag : env.NewBag env.cfg.BagPath = .ok ())
    (hList : bagList env bag args = .ok list) :
    (batchCmd op env args ⟨bag, []⟩).world.trace.count Event.readPassword =
        (if list.length > 0 then 1 else 0) ∧
      ∀ encrypted pw1,
        Event.decrypt encrypted pw1 ∈ (batchCmd op env args ⟨bag, []⟩).world.trace →
          env.ReadPassword = .ok pw1 := by
  have hp : ([] ++ promptEvents env).count Event.readPassword = 1 := by
    simpa using count_readPassword_promptEvents env
  have hpd : ∀ encrypted pw1, Event.decrypt encrypted pw1 ∉ ([] ++ promptEvents env) := by
    intro encrypted pw1
    simpa using decrypt_not_mem_promptEvents env encrypted pw1
  have hr : ([] ++ (rotateNotice env list ++ promptEvents env)).count Event.readPassword = 1 := by
    simp [List.count_append, count_readPassword_promptEvents, count_readPassword_rotateNotice]
  have hrd : ∀ encrypted pw1,
      Event.decrypt encrypted pw1 ∉ ([] ++ (rotateNotice env list ++ promptEvents env)) := by
    intro encrypted pw1
    simp [decrypt_not_mem_promptEvents, decrypt_not_mem_rotateNotice]
  cases op with
  | Show =>
    simp only [batchCmd]
    rw [showCmd_eq env c args list ⟨bag, []⟩ hCrypt hBag hList]
    by_cases hlen : list.length > 0
    · simp only [hlen, if_true]
      cases hpw : env.ReadPassword with
      | error err =>
        simp [Outcome.world, List.count_append, count_readPassword_promptEvents,
          decrypt_not_mem_promptEvents, List.count_cons]
      | ok pw =>
        have hg := forRange_grows pw (showEntry env c pw) (showEntry_grows env c pw)
          (env.rangeOrder 0 list) ⟨bag, [] ++ promptEvents env⟩
        obtain ⟨h1, h2⟩ := passphrase_after_prompt 1 hp hpd hg
        exact ⟨h1, fun encrypted pw1 hmem => by rw [h2 encrypted pw1 hmem]⟩
    · simp [hlen, Outcome.world, List.count_cons]
  | Verify =>
    simp only [batchCmd]
    rw [verifyCmd_eq env c args list ⟨bag, []⟩ hCrypt hBag hList]
    by_cases hlen : list.length > 0
    · simp only [hlen, if_true]
      cases hpw : env.ReadPassword with
      | error err =>
        simp [Outcome.world, List.count_append, count_readPassword_promptEvents,
          decrypt_not_mem_promptEvents, List.count_cons]
      | ok pw =>
        have hg := forRange_grows pw (verifyEntry env c pw) (verifyEntry_grows env c pw)
          (env.rangeOrder 0 list) ⟨bag, [] ++ promptEvents env⟩
        obtain ⟨h1, h2⟩ := passphrase_after_prompt 1 hp hpd hg
        exact ⟨h1, fun encrypted pw1 hmem => by rw [h2 encrypted pw1 hmem]⟩
    · simp [hlen, Outcome.world, List.count_cons]
  | Rotate =>
    simp only [batchCmd]
    rw [rotateCmd_eq env c args list ⟨bag, []⟩ hCrypt hBag hList]
    by_cases hlen : list.length > 0
    · simp only [hlen, if_true]
      cases hpw : env.ReadPassword with
      | error err =>
        simp [Outcome.world, List.count_append, count_readPassword_promptEvents,
          decrypt_not_mem_promptEvents, List.count_cons, count_readPassword_rotateNotice,
          decrypt_not_mem_rotateNotice]
      | ok pw =>
        have hg := forRange_grows pw (rotateEntry env c pw) (rotateEntry_grows env c pw)
          (env.rangeOrder 1 list) ⟨bag, [] ++ (rotateNotice env list ++ promptEvents env)⟩
        obtain ⟨h1, h2⟩ := passphrase_after_prompt 1 hr hrd hg
        exact ⟨h1, fun encrypted pw1 hmem => by rw [h2 encrypted pw1 hmem]⟩
    · simp [hlen, Outcome.world, List.count_cons]
  | Mount =>
    simp only [batchCmd]
    rw [mountCmd_eq env c args list ⟨bag, []⟩ hCrypt hBag hList]
    by_cases hlen : list.length > 0
    · simp only [hlen, if_true]
      cases hpw : env.ReadPassword with
      | error err =>
        simp [Outcome.world, List.count_append, count_readPassword_promptEvents,
          decrypt_not_mem_promptEvents, List.count_cons]
      | ok pw =>
        have hg := mountLoop_grows env c pw (env.rangeOrder 0 list) []
          ⟨bag, [] ++ promptEvents env⟩
        obtain ⟨h1, h2⟩ := passphrase_after_prompt 1 hp hpd hg
        cases hl : mountLoop env c pw (env.rangeOrder 0 list) []
            ⟨bag, [] ++ promptEvents env⟩ with
        | exit code w1 =>
          rw [hl] at h1 h2
          simp only [hl]
          exact ⟨h1, fun encrypted pw1 hmem => by rw [h2 encrypted pw1 hmem]⟩
        | ok mountFiles w1 =>
          rw [hl] at h1 h2
          simp only [hl]
          simp only [Outcome.world] at h1 h2 ⊢
          refine ⟨by simp [List.count_append, h1, List.count_cons], ?_⟩
          intro encrypted pw1 hmem
          have hmem1 : Event.decrypt encrypted pw1 ∈ w1.trace := by simpa using hmem
          rw [h2 encrypted pw1 hmem1]
    · simp [hlen, Outcome.world, List.count_cons]

/-- Witness for C8: `rotate *` on the concrete bag (one prompt, and the decryption of `a`
gets the bytes typed), and `show zzz`, which matches nothing (no prompt). -/
theorem passphrase_prompted_once_witness :
    bagList demoEnv demoBag ["*"] = .ok [("a", "aws"), ("f", "file")] ∧
    (batchCmd .Rotate demoEnv ["*"] ⟨demoBag, []⟩).world.trace.count Event.readPassword = 1 ∧
    Event.decrypt [42, 1, 97, 7] [112, 119] ∈
      (batchCmd .Rotate demoEnv ["*"] ⟨demoBag, []⟩).world.trace ∧
    demoEnv.ReadPassword = .ok [112, 119] ∧
    bagList demoEnv demoBag ["zzz"] = .ok [] ∧
    (batchCmd .Show demoEnv ["zzz"] ⟨demoBag, []⟩).world.trace.count Event.readPassword = 0 :=
  ⟨rfl,
    (passphrase_prompted_once .Rotate demoEnv demoCrypt ["*"] demoBag
      [("a", "aws"), ("f", "file")] rfl rfl rfl).1,
    by decide,
    (passphrase_prompted_once .Rotate demoEnv demoCrypt ["*"] demoBag
      [("a", "aws"), ("f", "file")] rfl rfl rfl).2 [42, 1, 97, 7] [112, 119] (by decide),
    rfl,
    (passphrase_prompted_once .Show demoEnv demoCrypt ["zzz"] demoBag [] rfl rfl rfl).1⟩

/-! ## Mounting (C7, C10) -/

/-- C7: when an invocation of `mount` reaches the call of `mount`, the buffer passed for
any target path `t` is the concatenation of the mount snippet contents of the matched
profiles that support mounting and whose snippet is for `t`, in the order the loop visited
the entries (`env.rangeOrder 0 list`); a path for which no such profile has a snippet
is not in the mapping.  The right-hand side depends on the invocation only through that
order. -/
theorem mount_buffer_is_concatenation {P : Type} (env : Env P) (c : Crypt)
    (args : List String) (bag : Bag) (list : Listing) (pw : Bytes)
    (mp : String) (files : Files) (timeout : Int) (debug : Bool) (t : String)
    (hCrypt : env.NewCrypt env.cfg.PublicRSAKey env.cfg.PrivateRSAKey = .ok c)
    (hList : bagList env bag args = .ok list)
    (hPw : env.ReadPassword = .ok pw)
    (hMount : Event.mount mp files timeout debug ∈
      (mountCmd env args ⟨bag, []⟩).world.trace) :
    mapGet files t = snippetsAt t (mountSnippets env c pw bag (env.rangeOrder 0 list)) := by
  rcases mountCmd_cases env args bag with h0 | ⟨c1, list1, pw1, files1, w1, h1, h2, h3, hl, hc, hcmd⟩
  · exact absurd hMount (not_mem_of_countP_isMount h0 mp files timeout debug)
  · rw [hCrypt] at h1
    rw [hList] at h2
    rw [hPw] at h3
    simp only [Except.ok.injEq] at h1 h2 h3
    subst h1 h2 h3
    rw [hcmd] at hMount
    simp only [Outcome.world, List.mem_append, List.mem_cons, List.mem_singleton,
      List.not_mem_nil, or_false, reduceCtorEq, false_or, Event.mount.injEq] at hMount
    rcases hMount with h | h
    · exact absurd h (not_mem_of_countP_isMount hc mp files timeout debug)
    · obtain ⟨_, hf, _, _⟩ := h
      subst hf
      have := mountLoop_files env c pw (env.rangeOrder 0 list) [] files _ w1 hl t
      rw [this]
      cases snippetsAt t (mountSnippets env c pw bag (env.rangeOrder 0 list)) <;>
        simp [mapGet]

/-- Witness for C7: `mount *` on the concrete bag with the two `file` entries `f`
and `g`, both for the path `credentials`, and the `aws` entry `a`, which is skipped. -/
theorem mount_buffer_is_concatenation_witness :
    Event.mount "/mnt/scum" [("credentials", [9, 5])] 10 false ∈
      (mountCmd demoEnv ["*"] ⟨demoBag2, []⟩).world.trace ∧
    mapGet [("credentials", [9, 5])] "credentials" =
      snippetsAt "credentials" (mountSnippets demoEnv demoCrypt [112, 119] demoBag2
        [("a", "aws"), ("f", "file"), ("g", "file")]) ∧
    snippetsAt "credentials" (mountSnippets demoEnv demoCrypt [112, 119] demoBag2
        [("a", "aws"), ("f", "file"), ("g", "file")]) = some [9, 5] ∧
    mapGet [("credentials", [9, 5])] "other" = none :=
  ⟨by decide,
    mount_buffer_is_concatenation demoEnv demoCrypt ["*"] demoBag2
      [("a", "aws"), ("f", "file"), ("g", "file")] [112, 119] "/mnt/scum"
      [("credentials", [9, 5])] 10 false "credentials" rfl rfl rfl (by decide),
    by decide, by decide⟩

/-- C10: an invocation of `mount` calls `mount` at most once; when `NewProfile`,
`b.Read`, `c.Decrypt` or `p.Deserialize` fails for a matched entry (`mountSnippetOf` is an
error for it), `mount` is not called at all; and when the listing is not empty and every
entry is skipped for lack of the Mount capability, the invocation prints the skip
warnings and then calls `mount` once, with the empty file mapping. -/
theorem mount_called_once_after_all_entries {P : Type} (env : Env P) (args : List String)
    (bag : Bag) :
    (mountCmd env args ⟨bag, []⟩).world.trace.countP Event.isMount ≤ 1 ∧
    (∀ c list pw,
      env.NewCrypt env.cfg.PublicRSAKey env.cfg.PrivateRSAKey = .ok c →
      bagList env bag args = .ok list →
      env.ReadPassword = .ok pw →
      (∃ e ∈ env.rangeOrder 0 list, ∃ err, mountSnippetOf env c pw bag e = .error err) →
      (mountCmd env args ⟨bag, []⟩).world.trace.countP Event.isMount = 0) ∧
    (∀ c list pw,
      env.NewCrypt env.cfg.PublicRSAKey env.cfg.PrivateRSAKey = .ok c →
      env.NewBag env.cfg.BagPath = .ok () →
      bagList env bag args = .ok list →
      list.length > 0 →
      env.ReadPassword = .ok pw →
      (∀ e ∈ env.rangeOrder 0 list,
        ∃ p, env.NewProfile e.2 = .ok p ∧ (env.Capabilities p).Mount = false) →
      mountCmd env args ⟨bag, []⟩ =
        .ok () ⟨bag, promptEvents env ++ (env.rangeOrder 0 list).map mountSkipNotice ++
          [.stdout ("Mounting credentials at " ++ env.cfg.Mountpoint ++ "\n"),
           .mount env.cfg.Mountpoint [] env.cfg.MountTimeout env.cfg.Debug]⟩) := by
  refine ⟨?_, ?_, ?_⟩
  · rcases mountCmd_cases env args bag with h0 | ⟨c1, list1, pw1, files1, w1, _, _, _, _, hc, hcmd⟩
    · rw [h0]; exact Nat.zero_le 1
    · rw [hcmd]
      simp [Outcome.world, List.countP_append, hc, List.countP_cons, Event.isMount]
  · intro c list pw hCrypt hList hPw hFail
    rcases mountCmd_cases env args bag with h0 | ⟨c1, list1, pw1, files1, w1, h1, h2, h3, hl, _, _⟩
    · exact h0
    · rw [hCrypt] at h1
      rw [hList] at h2
      rw [hPw] at h3
      simp only [Except.ok.injEq] at h1 h2 h3
      subst h1 h2 h3
      obtain ⟨code, w2, hx⟩ := mountLoop_of_error env c pw (env.rangeOrder 0 list) []
        ⟨bag, [] ++ promptEvents env⟩ hFail
      rw [hx] at hl
      simp at hl
  · intro c list pw hCrypt hBag hList hlen hPw hSkip
    rw [mountCmd_eq env c args list ⟨bag, []⟩ hCrypt hBag hList]
    simp only [hlen, if_true, hPw]
    rw [mountLoop_all_skipped env c pw _ _ _ hSkip]
    simp

/-- Witness for C10: `mount *` on the concrete bag (at most one call); on two `note`
entries, both skipped (one call, with the empty mapping); and on the concrete bag with a
wrong passphrase, where decryption of `f` fails (no call). -/
theorem mount_called_once_after_all_entries_witness :
    (mountCmd demoEnv ["*"] ⟨demoBag2, []⟩).world.trace.countP Event.isMount ≤ 1 ∧
    mountCmd demoEnv ["*"] ⟨demoNotes, []⟩ =
      .ok () ⟨demoNotes,
        [.stderr "Enter Password for 'id_rsa': ", .readPassword, .stdout "\n",
         mountSkipNotice ("m", "note"), mountSkipNotice ("n", "note"),
         .stdout "Mounting credentials at /mnt/scum\n", .mount "/mnt/scum" [] 10 false]⟩ ∧
    mountSnippetOf demoEnvWrongPassphrase demoCrypt [0] demoBag2 ("f", "file") =
      .error .AuthenticationError ∧
    (mountCmd demoEnvWrongPassphrase ["*"] ⟨demoBag2, []⟩).world.trace.countP
      Event.isMount = 0 :=
  ⟨(mount_called_once_after_all_entries demoEnv ["*"] demoBag2).1,
    (mount_called_once_after_all_entries demoEnv ["*"] demoNotes).2.2 demoCrypt
      [("m", "note"), ("n", "note")] [112, 119] rfl rfl rfl (by decide) rfl
      (by
        intro e he
        have he1 : e = ("m", "note") ∨ e = ("n", "note") := by simpa [demoEnv] using he
        rcases he1 with h | h <;> subst h <;> exact ⟨⟨"note", "", []⟩, rfl, rfl⟩),
    rfl,
    (mount_called_once_after_all_entries demoEnvWrongPassphrase ["*"] demoBag2).2.1 demoCrypt
      [("a", "aws"), ("f", "file"), ("g", "file")] [0] rfl rfl rfl
      ⟨("f", "file"), by decide, .AuthenticationError, rfl⟩⟩

/-! ## Showing with a wrong passphrase (C5) -/

theorem profile_not_mem_loadTrace {P : Type} (env : Env P) (c : Crypt) (pw : Bytes) (bag : Bag)
    (name kind s : String) : Event.profile s ∉ loadTrace env c pw bag name kind := by
  unfold loadTrace
  cases h2 : bagRead env bag name kind with
  | error err => simp
  | ok encrypted => cases h3 : c.Decrypt encrypted pw <;> simp [h3]

theorem loadProfile_of_decrypt_error {P : Type} (env : Env P) (c : Crypt) (pw : Bytes)
    (bag : Bag) (p0 : P) (name kind : String) (err : Err)
    (hAuth : ∀ encrypted, c.Decrypt encrypted pw = .error err) :
    ∃ err1, loadProfile env c pw bag p0 name kind = .error err1 := by
  unfold loadProfile
  cases h2 : bagRead env bag name kind with
  | error err2 => exact ⟨err2, rfl⟩
  | ok encrypted => exact ⟨err, by simp [hAuth]⟩

theorem show_loop_prints_no_profile {P : Type} (env : Env P) (c : Crypt) (pw : Bytes)
    (err : Err) (hAuth : ∀ encrypted, c.Decrypt encrypted pw = .error err)
    (l : Listing) (w : World) (hw : ∀ s, Event.profile s ∉ w.trace) :
    ∀ s, Event.profile s ∉ (forRange (showEntry env c pw) l w).world.trace := by
  cases l with
  | nil => exact hw
  | cons e rest =>
    obtain ⟨name, kind⟩ := e
    intro s
    rw [forRange_cons, showEntry_eq]
    cases h1 : env.NewProfile kind with
    | error err1 => simp [Outcome.world, hw]
    | ok p0 =>
      obtain ⟨err1, h2⟩ := loadProfile_of_decrypt_error env c pw w.bag p0 name kind err hAuth
      simp [h2, Outcome.world, hw, profile_not_mem_loadTrace]

/-- C5: in a `show` invocation whose listing is not empty and in which the passphrase
typed is wrong (`c.Decrypt` with it fails with `AuthenticationError` whatever the
ciphertext), no profile is printed at all; and once the first entry visited has been
read from the bag, the invocation ends there: the `AuthenticationError` is printed to
standard error and the process exits with status -1, no `p.Deserialize` having been
called. -/
theorem show_wrong_passphrase_no_output {P : Type} (env : Env P) (c : Crypt)
    (args : List String) (bag : Bag) (list : Listing) (pw : Bytes)
    (hCrypt : env.NewCrypt env.cfg.PublicRSAKey env.cfg.PrivateRSAKey = .ok c)
    (hBag : env.NewBag env.cfg.BagPath = .ok ())
    (hList : bagList env bag args = .ok list)
    (hLen : list.length > 0)
    (hPw : env.ReadPassword = .ok pw)
    (hAuth : ∀ encrypted, c.Decrypt encrypted pw = .error .AuthenticationError) :
    (∀ s, Event.profile s ∉ (showCmd env args ⟨bag, []⟩).world.trace) ∧
    (∀ name kind rest p0 encrypted,
      env.rangeOrder 0 list = (name, kind) :: rest →
      env.NewProfile kind = .ok p0 →
      bagRead env bag name kind = .ok encrypted →
      showCmd env args ⟨bag, []⟩ =
        .exit (-1) ⟨bag, promptEvents env ++
          [.read name kind, .decrypt encrypted pw, .stderrErr .AuthenticationError]⟩) := by
  rw [showCmd_eq env c args list ⟨bag, []⟩ hCrypt hBag hList]
  simp only [hLen, if_true, hPw]
  refine ⟨?_, ?_⟩
  · apply show_loop_prints_no_profile env c pw .AuthenticationError hAuth
    intro s
    simp [promptEvents]
  · intro name kind rest p0 encrypted hOrder hNew hRead
    rw [hOrder, forRange_cons, showEntry_eq]
    simp [hNew, loadProfile, loadTrace, hRead, hAuth]

/-- Witness for C5: `show *` on the concrete bag with a wrong passphrase. -/
theorem show_wrong_passphrase_no_output_witness :
    demoEnvWrongPassphrase.ReadPassword = .ok [0] ∧
    (∀ encrypted, demoCrypt.Decrypt encrypted [0] = .error .AuthenticationError) ∧
    Event.profile "aws a" ∉ (showCmd demoEnvWrongPassphrase ["*"] ⟨demoBag, []⟩).world.trace ∧
    showCmd demoEnvWrongPassphrase ["*"] ⟨demoBag, []⟩ =
      .exit (-1) ⟨demoBag, [.stderr "Enter Password for 'id_rsa': ", .readPassword,
        .stdout "\n", .read "a" "aws", .decrypt [42, 1, 97, 7] [0],
        .stderrErr .AuthenticationError]⟩ :=
  have h := show_wrong_passphrase_no_output demoEnvWrongPassphrase demoCrypt ["*"] demoBag
    [("a", "aws"), ("f", "file")] [0] rfl rfl rfl (by decide) rfl (fun _ => rfl)
  ⟨rfl, fun _ => rfl, h.1 "aws a",
    h.2 "a" "aws" [("f", "file")] ⟨"aws", "", []⟩ [42, 1, 97, 7] rfl rfl rfl⟩

/-! ## Rotation that succeeds (C6) -/

theorem mem_bagWrite (bag : Bag) (name kind : String) (data : Bytes) (e : BagEntry)
    (he : e ∈ bagWrite bag name kind data) (hn : e.name = name) : e = ⟨name, kind, data⟩ := by
  unfold bagWrite at he
  rcases List.mem_append.1 he with h | h
  · simp [List.mem_filter] at h
    exact absurd hn h.2
  · simpa using h

theorem bagRead_bagWrite {P : Type} (env : Env P) (bag : Bag) (name kind : String)
    (data : Bytes) (hRead : env.readFault name kind = none) :
    bagRead env (bagWrite bag name kind data) name kind = .ok data := by
  unfold bagRead bagWrite
  simp only [hRead]
  rw [List.find?_append]
  have : List.find? (fun e => decide (e.name = name ∧ e.kind = kind))
      (List.filter (fun e => decide (e.name ≠ name)) bag) = none := by
    rw [List.find?_eq_none]
    intro e he
    simp [List.mem_filter] at he
    simp [he.2]
  rw [this]
  simp

theorem find_filter_other (bag : Bag) (name other k : String) (hne : name ≠ other) :
    List.find? (fun e => decide (e.name = other ∧ e.kind = k))
      (List.filter (fun e => decide (e.name ≠ name)) bag) =
    List.find? (fun e => decide (e.name = other ∧ e.kind = k)) bag := by
  induction bag with
  | nil => rfl
  | cons e rest ih =>
    by_cases hn : e.name = name
    · have ho : ¬ (e.name = other ∧ e.kind = k) := fun h => hne (hn.symm.trans h.1)
      rw [List.filter_cons_of_neg (by simpa using hn),
        List.find?_cons_of_neg _ (by simpa using ho), ih]
    · rw [List.filter_cons_of_pos (by simpa using hn)]
      by_cases hp : e.name = other ∧ e.kind = k
      · rw [List.find?_cons_of_pos _ (by simpa using hp),
          List.find?_cons_of_pos _ (by simpa using hp)]
      · rw [List.find?_cons_of_neg _ (by simpa using hp),
          List.find?_cons_of_neg _ (by simpa using hp), ih]

theorem bagRead_bagWrite_other {P : Type} (env : Env P) (bag : Bag) (name kind : String)
    (data : Bytes) (other k : String) (hne : name ≠ other) :
    bagRead env (bagWrite bag name kind data) other k = bagRead env bag other k := by
  unfold bagRead bagWrite
  rw [List.find?_append, find_filter_other bag name other k hne]
  cases List.find? (fun e => decide (e.name = other ∧ e.kind = k)) bag with
  | some e => simp
  | none => simp [hne]

/-- C6 as stated fails: `rotate a` on a bag whose entry `a` holds a payload that names its
profile `f`.  `b.Read`, `c.Decrypt`, `p.Deserialize`, `p.RotateCredentials`, `c.Encrypt`
and `b.Write` all succeed and `done!` is printed, but the new ciphertext is written under
`p.Name()`, that is `f`: the entry stored under `a` still holds the old ciphertext, and
reading `a` returns it. -/
theorem rotate_writes_under_payload_name :
    rotateCmd demoEnv ["a"] ⟨demoBagMisnamed, []⟩ =
      .ok () ⟨[⟨"a", "aws", [42, 1, 102, 7]⟩, ⟨"f", "aws", [42, 1, 102, 8]⟩],
        [.stdout "The following credentials are going to be rotated:\n",
         .stdout "\ta (type aws)\n",
         .stderr "Enter Password for 'id_rsa': ", .readPassword, .stdout "\n",
         .stdout "Rotating a (type aws)... ",
         .read "a" "aws", .decrypt [42, 1, 102, 7] [112, 119], .deserialize [1, 102, 7],
         .rotateCredentials, .write "f" "aws" [42, 1, 102, 8], .stdout "done!\n"]⟩ ∧
    demoCrypt.Encrypt [1, 102, 8] = .ok [42, 1, 102, 8] ∧
    demoEnv.writeFault "f" "aws" [42, 1, 102, 8] = none ∧
    bagRead demoEnv [⟨"a", "aws", [42, 1, 102, 7]⟩, ⟨"f", "aws", [42, 1, 102, 8]⟩] "a" "aws" =
      .ok [42, 1, 102, 7] :=
  ⟨by decide, rfl, rfl, rfl⟩

/-- C6 amended: in `rotate`, for a matched entry `(name, kind)` of a type that supports
rotation, when `b.Read`, `c.Decrypt`, `p.Deserialize`, `p.RotateCredentials`, `c.Encrypt`
and `b.Write` all succeed, the entry ends normally with `done!` and the new ciphertext
`newEncrypted = Encrypt(newSerialized)` is written under the name and type the loaded
profile reports, `p.Name()` and `p.Type()`.  Afterwards every entry stored under
`p.Name()` holds `newEncrypted` (an older ciphertext is gone from under it); reading
`p.Name()` back yields `newEncrypted`; a later `show` of that entry, when the envelope
decrypts `newEncrypted` back to `newSerialized`, prints the profile deserialized from
`newSerialized`, the new field values; and when `p.Name()` is not the name of the matched
entry, what the bag returns for the matched name is what it returned before.  With
`p.Name() = name` this is the claim for "that same name". -/
theorem rotate_success_writes_under_profile_name {P : Type} (env : Env P) (c : Crypt)
    (pw : Bytes) (name kind : String) (w : World) (p0 p p1 : P)
    (encrypted data newSerialized newEncrypted : Bytes)
    (hNew : env.NewProfile kind = .ok p0)
    (hCap : (env.Capabilities p0).Rotate = true)
    (hRead : bagRead env w.bag name kind = .ok encrypted)
    (hDecrypt : c.Decrypt encrypted pw = .ok data)
    (hDeserialize : env.Deserialize p0 data = .ok p)
    (hRotate : env.RotateCredentials p = (.ok newSerialized, p1))
    (hEncrypt : c.Encrypt newSerialized = .ok newEncrypted)
    (hWrite : env.writeFault (env.Name p1) (env.Kind p1) newEncrypted = none) :
    rotateEntry env c pw (name, kind) w =
      .ok () ⟨bagWrite w.bag (env.Name p1) (env.Kind p1) newEncrypted, w.trace ++
        [.stdout ("Rotating " ++ name ++ " (type " ++ env.Kind p0 ++ ")... "),
         .read name kind, .decrypt encrypted pw, .deserialize data, .rotateCredentials,
         .write (env.Name p1) (env.Kind p1) newEncrypted, .stdout "done!\n"]⟩ ∧
    (∀ e ∈ bagWrite w.bag (env.Name p1) (env.Kind p1) newEncrypted,
      e.name = env.Name p1 → e = ⟨env.Name p1, env.Kind p1, newEncrypted⟩) ∧
    (env.readFault (env.Name p1) (env.Kind p1) = none →
      bagRead env (bagWrite w.bag (env.Name p1) (env.Kind p1) newEncrypted)
        (env.Name p1) (env.Kind p1) = .ok newEncrypted) ∧
    (∀ q0 q tr, env.readFault (env.Name p1) (env.Kind p1) = none →
      env.NewProfile (env.Kind p1) = .ok q0 →
      c.Decrypt newEncrypted pw = .ok newSerialized →
      env.Deserialize q0 newSerialized = .ok q →
      showEntry env c pw (env.Name p1, env.Kind p1)
          ⟨bagWrite w.bag (env.Name p1) (env.Kind p1) newEncrypted, tr⟩ =
        .ok () ⟨bagWrite w.bag (env.Name p1) (env.Kind p1) newEncrypted,
          tr ++ [.read (env.Name p1) (env.Kind p1), .decrypt newEncrypted pw,
            .deserialize newSerialized, .profile (env.Format q)]⟩) ∧
    (env.Name p1 ≠ name → ∀ k,
      bagRead env (bagWrite w.bag (env.Name p1) (env.Kind p1) newEncrypted) name k =
        bagRead env w.bag name k) := by
  have hLoad : loadProfile env c pw w.bag p0 name kind = .ok p := by
    simp [loadProfile, hRead, hDecrypt, hDeserialize]
  refine ⟨?_, ?_, ?_, ?_, ?_⟩
  · rw [rotateEntry_eq]
    simp only [hNew, hCap, if_true, hLoad, hRotate, hEncrypt, hWrite]
    simp [loadTrace, hRead, hDecrypt]
  · intro e he hn
    exact mem_bagWrite _ _ _ _ e he hn
  · intro hr
    exact bagRead_bagWrite env _ _ _ _ hr
  · intro q0 q tr hr hq0 hd hq
    rw [showEntry_eq]
    have hb := bagRead_bagWrite env w.bag (env.Name p1) (env.Kind p1) newEncrypted hr
    simp [hq0, loadProfile, loadTrace, hb, hd, hq]
  · intro hne k
    exact bagRead_bagWrite_other env _ _ _ _ name k hne

/-- Witness for C6 amended: rotating the `aws` entry `a` (secret `7`), whose payload
names it `a`, and showing it afterwards: the new secret `8` is printed. -/
theorem rotate_success_writes_under_profile_name_witness :
    bagRead demoEnvShowSecret demoBagKey "a" "aws" = .ok [42, 1, 97, 55] ∧
    demoEnvShowSecret.RotateCredentials ⟨"aws", "a", [55]⟩ =
      (.ok [1, 97, 56], ⟨"aws", "a", [56]⟩) ∧
    rotateEntry demoEnvShowSecret demoCrypt [112, 119] ("a", "aws") ⟨demoBagKey, []⟩ =
      .ok () ⟨[⟨"a", "aws", [42, 1, 97, 56]⟩],
        [.stdout "Rotating a (type aws)... ",
         .read "a" "aws", .decrypt [42, 1, 97, 55] [112, 119], .deserialize [1, 97, 55],
         .rotateCredentials, .write "a" "aws" [42, 1, 97, 56], .stdout "done!\n"]⟩ ∧
    bagRead demoEnvShowSecret [⟨"a", "aws", [42, 1, 97, 56]⟩] "a" "aws" =
      .ok [42, 1, 97, 56] ∧
    showEntry demoEnvShowSecret demoCrypt [112, 119] ("a", "aws")
        ⟨[⟨"a", "aws", [42, 1, 97, 56]⟩], []⟩ =
      .ok () ⟨[⟨"a", "aws", [42, 1, 97, 56]⟩],
        [.read "a" "aws", .decrypt [42, 1, 97, 56] [112, 119], .deserialize [1, 97, 56],
         .profile "aws a 8"]⟩ :=
  have h := rotate_success_writes_under_profile_name demoEnvShowSecret demoCrypt [112, 119]
    "a" "aws" ⟨demoBagKey, []⟩ ⟨"aws", "", []⟩ ⟨"aws", "a", [55]⟩ ⟨"aws", "a", [56]⟩
    [42, 1, 97, 55] [1, 97, 55] [1, 97, 56] [42, 1, 97, 56] rfl rfl rfl rfl rfl rfl rfl rfl
  ⟨rfl, rfl, h.1, h.2.2.1 rfl,
    h.2.2.2.1 ⟨"aws", "", []⟩ ⟨"aws", "a", [56]⟩ [] rfl rfl rfl rfl⟩

/-! ## Adding, then showing (C4) -/

/-- What a successful `add` did: the prompted profile was serialized, encrypted, and
written to the bag under its name and type. -/
theorem addCmd_ok {P : Type} (env : Env P) (c : Crypt) (w w1 : World) (p0 : P)
    (hCrypt : env.NewCrypt env.cfg.PublicRSAKey env.cfg.PrivateRSAKey = .ok c)
    (hNew : env.NewProfile env.flagKind = .ok p0)
    (hAdd : addCmd env w = .ok () w1) :
    ∃ serialized encrypted,
      env.Serialize (env.Prompt p0) = .ok serialized ∧
      c.Encrypt serialized = .ok encrypted ∧
      env.NewBag env.cfg.BagPath = .ok () ∧
      w1 = ⟨bagWrite w.bag (env.Name (env.Prompt p0)) (env.Kind (env.Prompt p0)) encrypted,
        w.trace ++ [.write (env.Name (env.Prompt p0)) (env.Kind (env.Prompt p0)) encrypted]⟩ := by
  unfold addCmd at hAdd
  simp only [Run.bind_apply, hCrypt, hNew, exitOnErr_ok] at hAdd
  cases hs : env.Serialize (env.Prompt p0) with
  | error err => simp [hs] at hAdd
  | ok serialized =>
    simp only [hs, exitOnErr_ok] at hAdd
    cases he : c.Encrypt serialized with
    | error err => simp [he] at hAdd
    | ok encrypted =>
      simp only [he, exitOnErr_ok] at hAdd
      cases hb : env.NewBag env.cfg.BagPath with
      | error err => simp [hb] at hAdd
      | ok u =>
        simp only [hb, exitOnErr_ok, Write] at hAdd
        cases hw : env.writeFault (env.Name (env.Prompt p0)) (env.Kind (env.Prompt p0))
            encrypted with
        | some err => simp [hw] at hAdd
        | none =>
          simp only [hw, exitOnErr_ok, Outcome.ok.injEq, true_and] at hAdd
          exact ⟨serialized, encrypted, rfl, he, rfl, hAdd.symm⟩

/-- C4: assume the collaborators keep their contracts: `Decrypt(Encrypt(m), pw) = m` for
the passphrase typed, `Deserialize(Serialize(p))` on the fresh profile `q0` that
`NewProfile` makes for the type of `p` gives `p` back, and the bag reads back what was
written.  After `add` has stored the profile `p` the user entered, `show` with arguments
that match only the name of `p` decrypts what `add` encrypted and prints `p`: the one
profile written to standard output is the rendering of `p` itself. -/
theorem add_then_show_prints_profile {P : Type} (env : Env P) (c : Crypt)
    (args : List String) (w w1 : World) (p0 p q0 : P) (pw : Bytes)
    (hCrypt : env.NewCrypt env.cfg.PublicRSAKey env.cfg.PrivateRSAKey = .ok c)
    (hNew : env.NewProfile env.flagKind = .ok p0)
    (hPrompt : env.Prompt p0 = p)
    (hAdd : addCmd env w = .ok () w1)
    (hCryptRound : ∀ m e, c.Encrypt m = .ok e → c.Decrypt e pw = .ok m)
    (hFresh : env.NewProfile (env.Kind p) = .ok q0)
    (hProfileRound : ∀ data, env.Serialize p = .ok data → env.Deserialize q0 data = .ok p)
    (hReadBack : env.readFault (env.Name p) (env.Kind p) = none)
    (hPw : env.ReadPassword = .ok pw)
    (hList : bagList env w1.bag args = .ok [(env.Name p, env.Kind p)])
    (hRange : env.rangeOrder 0 [(env.Name p, env.Kind p)] = [(env.Name p, env.Kind p)]) :
    ∃ serialized encrypted,
      env.Serialize p = .ok serialized ∧
      c.Encrypt serialized = .ok encrypted ∧
      showCmd env args w1 =
        .ok () ⟨w1.bag, w1.trace ++ promptEvents env ++
          [.read (env.Name p) (env.Kind p), .decrypt encrypted pw, .deserialize serialized,
           .profile (env.Format p)]⟩ := by
  subst hPrompt
  obtain ⟨serialized, encrypted, hs, he, hb, hw1⟩ := addCmd_ok env c w w1 p0 hCrypt hNew hAdd
  refine ⟨serialized, encrypted, hs, he, ?_⟩
  rw [showCmd_eq env c args _ w1 hCrypt hb hList]
  have hr : bagRead env w1.bag (env.Name (env.Prompt p0)) (env.Kind (env.Prompt p0)) =
      .ok encrypted := by
    rw [hw1]
    exact bagRead_bagWrite env _ _ _ _ hReadBack
  have hd := hCryptRound serialized encrypted he
  have hp := hProfileRound serialized hs
  simp [hPw, hRange, forRange_cons, forRange_nil, showEntry_eq, hFresh, loadProfile, loadTrace,
    hr, hd, hp]

/-- Witness for C4: `add` of the profile `prod-aws` to the concrete bag, then
`show prod-aws`. -/
theorem add_then_show_prints_profile_witness :
    addCmd demoEnv ⟨demoBag, []⟩ =
      .ok () ⟨demoBagAdded,
        [.write "prod-aws" "aws" [42, 8, 112, 114, 111, 100, 45, 97, 119, 115, 1, 2, 3]]⟩ ∧
    bagList demoEnv demoBagAdded ["prod-aws"] = .ok [("prod-aws", "aws")] ∧
    ∃ serialized encrypted,
      demoEnv.Serialize ⟨"aws", "prod-aws", [1, 2, 3]⟩ = .ok serialized ∧
      demoCrypt.Encrypt serialized = .ok encrypted ∧
      showCmd demoEnv ["prod-aws"] ⟨demoBagAdded,
          [.write "prod-aws" "aws" [42, 8, 112, 114, 111, 100, 45, 97, 119, 115, 1, 2, 3]]⟩ =
        .ok () ⟨demoBagAdded,
          [.write "prod-aws" "aws" [42, 8, 112, 114, 111, 100, 45, 97, 119, 115, 1, 2, 3]] ++
          promptEvents demoEnv ++
          [.read "prod-aws" "aws", .decrypt encrypted [112, 119], .deserialize serialized,
           .profile "aws prod-aws"]⟩ :=
  ⟨by decide, rfl,
    add_then_show_prints_profile demoEnv demoCrypt ["prod-aws"] ⟨demoBag, []⟩
      ⟨demoBagAdded,
        [.write "prod-aws" "aws" [42, 8, 112, 114, 111, 100, 45, 97, 119, 115, 1, 2, 3]]⟩
      ⟨"aws", "", []⟩ ⟨"aws", "prod-aws", [1, 2, 3]⟩ ⟨"aws", "", []⟩ [112, 119] rfl rfl rfl
      (by decide)
      (by intro m e h; cases h; rfl)
      rfl
      (by intro data h1; cases h1; rfl)
      rfl rfl rfl rfl⟩

end Scum
